import Mathlib

/-!
# `validity.StringValidityChecker` (string_checker.go)

A shallow embedding of the string checker of the `validity` package and of the
parts of the Go standard library it calls (`unicode/utf8`, `strconv`, `net`,
`regexp`), followed by theorems about the length rules, the argument
conversion `toInt`, the IP rules, the pattern rules, `GetErrors` and the CNP
validator.

Conventions of the embedding

* A Go `string` is a sequence of bytes, `List UInt8`; all arithmetic on bytes is
  done on their values (`UInt8.toNat`).
* Go `int` is the 64-bit integer of 64-bit targets; integers are `Int`/`Nat` and
  every place where Go wraps or truncates applies the reduction explicitly.
* A run-time panic (index or slice bounds out of range, nil pointer
  dereference) is the `Except.error` result.
* `log.Println` calls only write diagnostics and have no effect on results; they
  are left out.
-/

namespace Validity

/-- A Go string: an immutable sequence of bytes, not necessarily valid UTF-8. -/
abbrev GoString := List UInt8

/-- Run-time panics of the Go runtime that the checker can raise. -/
inductive RuntimeError where
  | indexOutOfRange (index length : Nat)
  | sliceBoundsOutOfRange (low length : Nat)
  | nilDereference
  deriving DecidableEq, Repr

deriving instance DecidableEq for Except

/-- Go index expression `xs[i]` used as a value: panics when `i` is not below `len(xs)`. -/
def index {α : Type} (xs : List α) (i : Nat) : Except RuntimeError α :=
  match xs.get? i with
  | some x => Except.ok x
  | none => Except.error (RuntimeError.indexOutOfRange i xs.length)

/-- Go assignment `xs[i] = v` on a slice: panics when `i` is not below `len(xs)`. -/
def assign {α : Type} (xs : List α) (i : Nat) (v : α) : Except RuntimeError (List α) :=
  if i < xs.length then Except.ok (xs.set i v)
  else Except.error (RuntimeError.indexOutOfRange i xs.length)

/-! ## `unicode/utf8` -/

namespace utf8

/-- The replacement rune `utf8.RuneError` (U+FFFD). -/
def RuneError : Nat := 0xFFFD

/-- The largest rune `utf8.MaxRune` (U+10FFFF). -/
def MaxRune : Nat := 0x10FFFF

/-- Go `utf8.AppendRune(nil, r)` for a non-negative rune `r`, the bytes that
`utf8.EncodeRune` writes.  The bit fields of each byte are disjoint, so
`t | x` is written `t + x`, `r >> k` is `r / 2^k` and `byte(x) & maskx` is `x % 64`. -/
def AppendRune (r : Nat) : GoString :=
  if r ≤ 0x7F then
    [UInt8.ofNat r]
  else if r ≤ 0x7FF then
    [UInt8.ofNat (0xC0 + r / 64), UInt8.ofNat (0x80 + r % 64)]
  else if r > MaxRune ∨ (0xD800 ≤ r ∧ r ≤ 0xDFFF) then
    [UInt8.ofNat (0xE0 + RuneError / 4096), UInt8.ofNat (0x80 + RuneError / 64 % 64),
      UInt8.ofNat (0x80 + RuneError % 64)]
  else if r ≤ 0xFFFF then
    [UInt8.ofNat (0xE0 + r / 4096), UInt8.ofNat (0x80 + r / 64 % 64), UInt8.ofNat (0x80 + r % 64)]
  else
    [UInt8.ofNat (0xF0 + r / 262144), UInt8.ofNat (0x80 + r / 4096 % 64),
      UInt8.ofNat (0x80 + r / 64 % 64), UInt8.ofNat (0x80 + r % 64)]

/-- The table `utf8.first`: information about the first byte of an encoding.
`0xF0` is ASCII (`as`), `0xF1` is invalid (`xx`); otherwise the low three bits
are the size and the high four bits index `acceptRanges`. -/
def first (b : Nat) : Nat :=
  if b < 0x80 then 0xF0
  else if b < 0xC2 then 0xF1
  else if b < 0xE0 then 0x02
  else if b = 0xE0 then 0x13
  else if b < 0xED then 0x03
  else if b = 0xED then 0x23
  else if b < 0xF0 then 0x03
  else if b = 0xF0 then 0x34
  else if b < 0xF4 then 0x04
  else if b = 0xF4 then 0x44
  else 0xF1

/-- The table `utf8.acceptRanges`: the accepted range `(lo, hi)` of the second byte. -/
def acceptRanges (i : Nat) : Nat × Nat :=
  match i with
  | 0 => (0x80, 0xBF)
  | 1 => (0xA0, 0xBF)
  | 2 => (0x80, 0x9F)
  | 3 => (0x90, 0xBF)
  | 4 => (0x80, 0x8F)
  | _ => (0, 0)

/-- Byte `s[i]` as a number, read only where the source has checked `i < len(s)`. -/
def byteAt (s : GoString) (i : Nat) : Nat := (s.getD i 0).toNat

/-- Go `utf8.DecodeRuneInString`: the first rune of `s` and its width in bytes;
an invalid encoding decodes to `(RuneError, 1)`, the empty string to `(RuneError, 0)`. -/
def DecodeRuneInString (s : GoString) : Nat × Nat :=
  let n := s.length
  if n < 1 then (RuneError, 0)
  else
    let s0 := byteAt s 0
    let x := first s0
    if x ≥ 0xF0 then
      (if x % 2 = 1 then RuneError else s0, 1)
    else
      let sz := x % 8
      let accept := acceptRanges (x / 16)
      if n < sz then (RuneError, 1)
      else
        let s1 := byteAt s 1
        if s1 < accept.1 ∨ accept.2 < s1 then (RuneError, 1)
        else if sz ≤ 2 then (s0 % 32 * 64 + s1 % 64, 2)
        else
          let s2 := byteAt s 2
          if s2 < 0x80 ∨ 0xBF < s2 then (RuneError, 1)
          else if sz ≤ 3 then (s0 % 16 * 4096 + s1 % 64 * 64 + s2 % 64, 3)
          else
            let s3 := byteAt s 3
            if s3 < 0x80 ∨ 0xBF < s3 then (RuneError, 1)
            else (s0 % 8 * 262144 + s1 % 64 * 4096 + s2 % 64 * 64 + s3 % 64, 4)

/-- The loop of the conversion `[]rune(s)` (a `for range s`): decode a rune, step
over its bytes, repeat until the string is used up.  Every step consumes at
least one byte, so `len(s)` iterations always suffice. -/
def runesLoop : Nat → GoString → List Nat
  | 0, _ => []
  | fuel + 1, s =>
    match s with
    | [] => []
    | _ :: _ =>
      let d := DecodeRuneInString s
      d.1 :: runesLoop fuel (s.drop d.2)

/-- Go conversion `[]rune(s)`. -/
def runes (s : GoString) : List Nat := runesLoop s.length s

/-- The UTF-8 encoding of a sequence of Unicode scalar values; the valid UTF-8
strings are exactly the strings of this form. -/
def encode (cs : List Char) : GoString := cs.flatMap (fun c => AppendRune c.toNat)

end utf8

/-- A Go string literal: the UTF-8 bytes of the text. -/
def lit (s : String) : GoString := utf8.encode s.data

/-- Go conversion `string(b)` of a byte: the UTF-8 encoding of the rune with value `b`. -/
def stringOfByte (b : UInt8) : GoString := utf8.AppendRune b.toNat

/-! ## `strconv` -/

namespace strconv

/-- The error kinds carried by `*strconv.NumError`. -/
inductive NumError where
  | ErrSyntax
  | ErrRange
  | ErrBitSize
  deriving DecidableEq, Repr

/-- The width `strconv.IntSize` of `int` on a 64-bit target. -/
def IntSize : Nat := 64

/-- Go `strconv.lower`: `c | ('x' - 'X')`. -/
def lower (c : Nat) : Nat := c ||| 0x20

/-- The digit loop of `strconv.ParseUint(s, 10, bitSize)` over the remaining
bytes, with `n` the value accumulated so far in a `uint64`. -/
def parseUintLoop (cutoff maxVal : Nat) : GoString → Nat → Nat × Option NumError
  | [], n => (n, none)
  | c :: rest, n =>
    let c := c.toNat
    let d : Option Nat :=
      if 0x30 ≤ c ∧ c ≤ 0x39 then some (c - 0x30)
      else if 0x61 ≤ lower c ∧ lower c ≤ 0x7A then some ((lower c - 0x61 + 10) % 256)
      else none
    match d with
    | none => (0, some NumError.ErrSyntax)
    | some d =>
      if d ≥ 10 then (0, some NumError.ErrSyntax)
      else if n ≥ cutoff then (maxVal, some NumError.ErrRange)
      else
        let n := n * 10 % 2 ^ 64
        let n1 := (n + d) % 2 ^ 64
        if n1 < n ∨ n1 > maxVal then (maxVal, some NumError.ErrRange)
        else parseUintLoop cutoff maxVal rest n1

/-- Go `strconv.ParseUint(s, 10, bitSize)`: the parsed value and the error, if any. -/
def ParseUint (s : GoString) (bitSize : Nat) : Nat × Option NumError :=
  if s = [] then (0, some NumError.ErrSyntax)
  else
    let bitSize := if bitSize = 0 then IntSize else bitSize
    if bitSize > 64 then (0, some NumError.ErrBitSize)
    else
      let cutoff := (2 ^ 64 - 1) / 10 + 1
      let maxVal := 2 ^ bitSize - 1
      parseUintLoop cutoff maxVal s 0

/-- Go conversion `int64(x)`: two's-complement wrap to 64 bits. -/
def toInt64 (x : Int) : Int := Int.bmod x (2 ^ 64)

/-- Go `strconv.ParseInt(s, 10, bitSize)`: the parsed value and the error, if
any.  On a range error the value is the nearest bound of the type, not zero. -/
def ParseInt (s : GoString) (bitSize : Nat) : Int × Option NumError :=
  match s with
  | [] => (0, some NumError.ErrSyntax)
  | c :: t =>
    let neg := c.toNat = 0x2D
    let s := if c.toNat = 0x2B then t else if c.toNat = 0x2D then t else c :: t
    let r := ParseUint s bitSize
    match r.2 with
    | some NumError.ErrSyntax => (0, some NumError.ErrSyntax)
    | some NumError.ErrBitSize => (0, some NumError.ErrBitSize)
    | _ =>
      let un := r.1
      let bitSize := if bitSize = 0 then IntSize else bitSize
      let cutoff := 2 ^ (bitSize - 1)
      if ¬ neg ∧ un ≥ cutoff then ((cutoff : Int) - 1, some NumError.ErrRange)
      else if neg ∧ un > cutoff then (-(cutoff : Int), some NumError.ErrRange)
      else
        let n := toInt64 un
        (if neg then toInt64 (-n) else n, none)

/-- Go conversion `int(x)` of an `int64` on a 64-bit target (two's-complement wrap to 64 bits). -/
def toGoInt (x : Int) : Int := Int.bmod x (2 ^ IntSize)

/-- The digit loop of the fast path of `strconv.Atoi`; `none` is the syntax error. -/
def atoiLoop : GoString → Int → Option Int
  | [], n => some n
  | ch :: rest, n =>
    let ch := (ch.toNat + 256 - 0x30) % 256
    if ch > 9 then none else atoiLoop rest (n * 10 + ch)

/-- Go `strconv.Atoi` on a 64-bit target: the fast path for strings of fewer
than 19 bytes, `ParseInt(s, 10, 0)` otherwise. -/
def Atoi (s : GoString) : Int × Option NumError :=
  let sLen := s.length
  if 0 < sLen ∧ sLen < 19 then
    let signed := utf8.byteAt s 0 = 0x2D ∨ utf8.byteAt s 0 = 0x2B
    let body := if signed then s.drop 1 else s
    if signed ∧ body.length < 1 then (0, some NumError.ErrSyntax)
    else
      match atoiLoop body 0 with
      | none => (0, some NumError.ErrSyntax)
      | some n => (if utf8.byteAt s 0 = 0x2D then -n else n, none)
  else
    let r := ParseInt s 0
    (toGoInt r.1, r.2)

/-- The decimal digits of `u`, most significant first (at most `fuel` of them). -/
def formatDigits : Nat → Nat → GoString
  | 0, _ => []
  | fuel + 1, u =>
    if u < 10 then [UInt8.ofNat (0x30 + u)]
    else formatDigits fuel (u / 10) ++ [UInt8.ofNat (0x30 + u % 10)]

/-- The decimal string of an integer: a minus sign for a negative number, then
the digits without leading zeros (`0` for zero).  `u + 1` bounds the number of
digits of `u`. -/
def decimal (i : Int) : GoString :=
  if i < 0 then UInt8.ofNat 0x2D :: formatDigits (i.natAbs + 1) i.natAbs
  else formatDigits (i.natAbs + 1) i.natAbs

/-- Go `strconv.Itoa(i)`, that is `FormatInt(int64(i), 10)`: the decimal string of `i`. -/
def Itoa (i : Int) : GoString := decimal i

end strconv

/-! ## `net` -/

namespace net

/-- Go `net.IP`: a byte slice; `none` is the nil slice. -/
abbrev IP := Option (List UInt8)

/-- Go `len(ip)` of an `IP`. -/
def IP.len (ip : IP) : Nat :=
  match ip with
  | none => 0
  | some b => b.length

/-- The constant `big` of package `net`. -/
def big : Nat := 0xFFFFFF

/-- The loop of `net.dtoi` over the remaining bytes: value so far `n`, position `i`. -/
def dtoiLoop : GoString → Nat → Nat → Nat × Nat × Bool
  | [], n, i => if i = 0 then (0, 0, false) else (n, i, true)
  | c :: rest, n, i =>
    if 0x30 ≤ c.toNat ∧ c.toNat ≤ 0x39 then
      let n := n * 10 + (c.toNat - 0x30)
      if n ≥ big then (big, i, false) else dtoiLoop rest n (i + 1)
    else if i = 0 then (0, 0, false) else (n, i, true)

/-- Go `net.dtoi`: decimal to integer; returns number, bytes consumed, success. -/
def dtoi (s : GoString) : Nat × Nat × Bool := dtoiLoop s 0 0

/-- The loop of `net.xtoi` over the remaining bytes: value so far `n`, position `i`. -/
def xtoiLoop : GoString → Nat → Nat → Nat × Nat × Bool
  | [], n, i => if i = 0 then (0, i, false) else (n, i, true)
  | c :: rest, n, i =>
    let c := c.toNat
    let d : Option Nat :=
      if 0x30 ≤ c ∧ c ≤ 0x39 then some (c - 0x30)
      else if 0x61 ≤ c ∧ c ≤ 0x66 then some (c - 0x61 + 10)
      else if 0x41 ≤ c ∧ c ≤ 0x46 then some (c - 0x41 + 10)
      else none
    match d with
    | none => if i = 0 then (0, i, false) else (n, i, true)
    | some d =>
      let n := n * 16 + d
      if n ≥ big then (0, i, false) else xtoiLoop rest n (i + 1)

/-- Go `net.xtoi`: hexadecimal to integer; returns number, bytes consumed, success. -/
def xtoi (s : GoString) : Nat × Nat × Bool := xtoiLoop s 0 0

/-- Go `net.IPv4(a, b, c, d)`: the 16-byte IPv4-mapped form of the address. -/
def IPv4 (a b c d : UInt8) : List UInt8 :=
  [0, 0, 0, 0, 0, 0, 0, 0, 0, 0, 0xff, 0xff, a, b, c, d]

/-- The loop `for i := 0; i < IPv4len; i++` of `net.parseIPv4`: `k` iterations
remain, `p` is the array of octets; `none` is the `return nil`. -/
def parseIPv4Loop : Nat → Nat → GoString → List UInt8 → Option (GoString × List UInt8)
  | 0, _, s, p => some (s, p)
  | k + 1, i, s, p =>
    if s.length = 0 then none
    else if 0 < i ∧ utf8.byteAt s 0 ≠ 0x2E then none
    else
      let s := if 0 < i then s.drop 1 else s
      let r := dtoi s
      if ¬ r.2.2 ∨ r.1 > 0xFF then none
      else if r.2.1 > 1 ∧ utf8.byteAt s 0 = 0x30 then none
      else parseIPv4Loop k (i + 1) (s.drop r.2.1) (p.set i (UInt8.ofNat r.1))

/-- Go `net.parseIPv4`: parse a dotted-decimal IPv4 address. -/
def parseIPv4 (s : GoString) : IP :=
  match parseIPv4Loop 4 0 s [0, 0, 0, 0] with
  | none => none
  | some (s, p) =>
    if s.length ≠ 0 then none
    else some (IPv4 (p.getD 0 0) (p.getD 1 0) (p.getD 2 0) (p.getD 3 0))

/-- The local variables of `net.parseIPv6`; `ellipsis` is `-1` while no `::` was seen. -/
structure V6State where
  i : Nat
  s : GoString
  ip : List UInt8
  ellipsis : Int
  deriving DecidableEq, Repr

/-- The loop `for i < IPv6len` of `net.parseIPv6`.  `none` is a `return nil`,
`some st` the state when the loop is left.  Every iteration that continues
adds 2 to `i`, so 9 rounds always reach the exit. -/
def parseIPv6Loop : Nat → V6State → Option V6State
  | 0, st => some st
  | fuel + 1, st =>
    if ¬ st.i < 16 then some st
    else
      let r := xtoi st.s
      let n := r.1
      let c := r.2.1
      if ¬ r.2.2 ∨ n > 0xFFFF then none
      else if c < st.s.length ∧ utf8.byteAt st.s c = 0x2E then
        if st.ellipsis < 0 ∧ st.i ≠ 12 then none
        else if st.i + 4 > 16 then none
        else
          match parseIPv4 st.s with
          | none => none
          | some ip4 =>
            let ip := (((st.ip.set st.i (ip4.getD 12 0)).set (st.i + 1) (ip4.getD 13 0)).set
              (st.i + 2) (ip4.getD 14 0)).set (st.i + 3) (ip4.getD 15 0)
            some { i := st.i + 4, s := [], ip := ip, ellipsis := st.ellipsis }
      else
        let ip := (st.ip.set st.i (UInt8.ofNat (n / 256))).set (st.i + 1) (UInt8.ofNat n)
        let i := st.i + 2
        let s := st.s.drop c
        if s.length = 0 then some { i := i, s := s, ip := ip, ellipsis := st.ellipsis }
        else if utf8.byteAt s 0 ≠ 0x3A ∨ s.length = 1 then none
        else
          let s := s.drop 1
          if utf8.byteAt s 0 = 0x3A then
            if st.ellipsis ≥ 0 then none
            else
              let s := s.drop 1
              if s.length = 0 then some { i := i, s := s, ip := ip, ellipsis := (i : Int) }
              else parseIPv6Loop fuel { i := i, s := s, ip := ip, ellipsis := (i : Int) }
          else parseIPv6Loop fuel { i := i, s := s, ip := ip, ellipsis := st.ellipsis }

/-- The loop `for j := i - 1; j >= ellipsis; j-- { ip[j+n] = ip[j] }`, with `k`
iterations left and the next one at `j`. -/
def moveUp (n : Nat) : Nat → Nat → List UInt8 → List UInt8
  | 0, _, ip => ip
  | k + 1, j, ip => moveUp n k (j - 1) (ip.set (j + n) (ip.getD j 0))

/-- The loop `for j := ellipsis + n - 1; j >= ellipsis; j-- { ip[j] = 0 }`, with
`k` iterations left and the next one at `j`. -/
def zeroFill : Nat → Nat → List UInt8 → List UInt8
  | 0, _, ip => ip
  | k + 1, j, ip => zeroFill k (j - 1) (ip.set j 0)

/-- Go `net.parseIPv6`: parse a literal IPv6 address (RFC 4291, RFC 5952). -/
def parseIPv6 (s : GoString) : IP :=
  let ip : List UInt8 := List.replicate 16 0
  let lead := s.length ≥ 2 ∧ utf8.byteAt s 0 = 0x3A ∧ utf8.byteAt s 1 = 0x3A
  let ellipsis : Int := if lead then 0 else -1
  let s := if lead then s.drop 2 else s
  if lead ∧ s.length = 0 then some ip
  else
    match parseIPv6Loop 9 { i := 0, s := s, ip := ip, ellipsis := ellipsis } with
    | none => none
    | some st =>
      if st.s.length ≠ 0 then none
      else if st.i < 16 then
        if st.ellipsis < 0 then none
        else
          let e := st.ellipsis.toNat
          let n := 16 - st.i
          some (zeroFill n (e + n - 1) (moveUp n (st.i - e) (st.i - 1) st.ip))
      else if st.ellipsis ≥ 0 then none
      else some st.ip

/-- The scan of `net.ParseIP` for the first `.` or `:` of `s`. -/
def parseIPScan (s : GoString) : GoString → IP
  | [] => none
  | c :: rest =>
    if c.toNat = 0x2E then parseIPv4 s
    else if c.toNat = 0x3A then parseIPv6 s
    else parseIPScan s rest

/-- Go `net.ParseIP`: the 16-byte address that `s` denotes, or nil. -/
def ParseIP (s : GoString) : IP := parseIPScan s s

/-- Go `net.isZeros`. -/
def isZeros (p : List UInt8) : Bool := p.all (fun b => b.toNat = 0)

/-- Go `(ip IP) To4()`: the 4-byte form of an IPv4 address, nil otherwise. -/
def To4 (ip : IP) : IP :=
  match ip with
  | none => none
  | some b =>
    if b.length = 4 then some b
    else if b.length = 16 ∧ isZeros (b.take 10) ∧ utf8.byteAt b 10 = 0xff ∧
        utf8.byteAt b 11 = 0xff then some ((b.drop 12).take 4)
    else none

/-- Go `(ip IP) To16()`: the 16-byte form of an address, nil if the length is wrong. -/
def To16 (ip : IP) : IP :=
  match ip with
  | none => none
  | some b =>
    if b.length = 4 then some (IPv4 (b.getD 0 0) (b.getD 1 0) (b.getD 2 0) (b.getD 3 0))
    else if b.length = 16 then some b
    else none

end net

/-! ## `regexp`

`regexp.Compile` is embedded for a fragment of the syntax: a sequence of
pieces, each a single-rune matcher (a literal, an escaped punctuation
character, `.`, `\d`, `\s`, `\w`, or a bracket class of letters, digits, `_`,
ranges of them, escaped punctuation and `\d`, `\s`, `\w`) with at most one of
`*`, `+`, `?` after it, or one of the anchors `^`, `$`.  On every other
expression (groups, alternation, counted or non-greedy repetition, negated
classes, non-ASCII text, ...) the parser of the embedding answers `other`, and
`Compile` hands the expression to a parameter that stands for the rest of the
library. -/

namespace regexp

/-- The single-rune operators and the anchors of `regexp/syntax`: `OpLiteral`,
`OpAnyCharNotNL`, `OpCharClass` (a list of inclusive ranges), `OpBeginText`,
`OpEndText`. -/
inductive Atom where
  | literal (r : Nat)
  | anyCharNotNL
  | charClass (ranges : List (Nat × Nat))
  | beginText
  | endText
  deriving DecidableEq, Repr

/-- The repetition after an atom: none, `*` (`OpStar`), `+` (`OpPlus`), `?` (`OpQuest`). -/
inductive Rep where
  | one
  | star
  | plus
  | quest
  deriving DecidableEq, Repr

/-- An atom with its repetition. -/
structure Piece where
  atom : Atom
  rep : Rep
  deriving DecidableEq, Repr

/-- The error codes of `regexp/syntax` that the fragment can raise. -/
inductive ErrorCode where
  | ErrMissingBracket
  | ErrMissingRepeatArgument
  deriving DecidableEq, Repr

/-- The outcome of parsing: the pieces of the expression, a syntax error, or
`other` for an expression outside the embedded fragment. -/
inductive Parsed where
  | ok (pieces : List Piece)
  | error (code : ErrorCode)
  | other
  deriving DecidableEq, Repr

/-- Where the parser is: at the top level, or inside a bracket class with the
ranges read so far (`first` while nothing was read after the `[`). -/
inductive Mode where
  | top
  | cls (ranges : List (Nat × Nat)) (first : Bool)
  deriving DecidableEq, Repr

/-- Go `isalnum` of `regexp/syntax`: an ASCII letter or digit. -/
def isalnum (c : Nat) : Bool :=
  (0x30 ≤ c && c ≤ 0x39) || (0x41 ≤ c && c ≤ 0x5A) || (0x61 ≤ c && c ≤ 0x7A)

/-- A printable ASCII punctuation character other than `_`; after a backslash
`parseEscape` returns such a character as itself. -/
def isPunct (c : Nat) : Bool :=
  0x21 ≤ c && c ≤ 0x7E && !isalnum c && c != 0x5F

/-- The characters with a meaning of their own at the top level:
`\ . + * ? ( ) | [ ] { } ^ $`. -/
def isMeta (c : Nat) : Bool :=
  [0x5C, 0x2E, 0x2B, 0x2A, 0x3F, 0x28, 0x29, 0x7C, 0x5B, 0x5D, 0x7B, 0x7D, 0x5E, 0x24].contains c

/-- The Perl classes `\d`, `\s`, `\w` of `regexp/syntax` (table `perlGroup`), by
the letter after the backslash. -/
def perlClass (c : Nat) : Option (List (Nat × Nat)) :=
  if c = 0x64 then some [(0x30, 0x39)]
  else if c = 0x73 then some [(0x09, 0x0A), (0x0C, 0x0D), (0x20, 0x20)]
  else if c = 0x77 then some [(0x30, 0x39), (0x41, 0x5A), (0x5F, 0x5F), (0x61, 0x7A)]
  else none

/-- The repetition operator that a byte spells, if any. -/
def repOf (c : Nat) : Option Rep :=
  if c = 0x2A then some Rep.star
  else if c = 0x2B then some Rep.plus
  else if c = 0x3F then some Rep.quest
  else none

/-- The parser of the fragment, over the remaining bytes of the expression;
`acc` holds the pieces read so far, last one first. -/
def parseLoop : GoString → Mode → List Piece → Parsed
  | [], Mode.top, acc => Parsed.ok acc.reverse
  | [], Mode.cls _ _, _ => Parsed.error ErrorCode.ErrMissingBracket
  | c :: t, Mode.top, acc =>
    let c := c.toNat
    if c = 0x5B then parseLoop t (Mode.cls [] true) acc
    else if c = 0x5E then parseLoop t Mode.top (⟨Atom.beginText, Rep.one⟩ :: acc)
    else if c = 0x24 then parseLoop t Mode.top (⟨Atom.endText, Rep.one⟩ :: acc)
    else if c = 0x2E then parseLoop t Mode.top (⟨Atom.anyCharNotNL, Rep.one⟩ :: acc)
    else if c = 0x5C then
      match t with
      | [] => Parsed.other
      | e :: t2 =>
        match perlClass e.toNat with
        | some rs => parseLoop t2 Mode.top (⟨Atom.charClass rs, Rep.one⟩ :: acc)
        | none =>
          if isPunct e.toNat then parseLoop t2 Mode.top (⟨Atom.literal e.toNat, Rep.one⟩ :: acc)
          else Parsed.other
    else
      match repOf c with
      | some rep =>
        match acc with
        | [] => Parsed.error ErrorCode.ErrMissingRepeatArgument
        | p :: acc2 =>
          if p.rep = Rep.one ∧ p.atom ≠ Atom.beginText ∧ p.atom ≠ Atom.endText then
            parseLoop t Mode.top (⟨p.atom, rep⟩ :: acc2)
          else Parsed.other
      | none =>
        if 0x20 ≤ c ∧ c ≤ 0x7E ∧ ¬ isMeta c then
          parseLoop t Mode.top (⟨Atom.literal c, Rep.one⟩ :: acc)
        else Parsed.other
  | c :: t, Mode.cls ranges first, acc =>
    let c := c.toNat
    if c = 0x5D then
      if first then Parsed.other
      else parseLoop t Mode.top (⟨Atom.charClass ranges, Rep.one⟩ :: acc)
    else if c = 0x5C then
      match t with
      | [] => Parsed.other
      | e :: t2 =>
        match perlClass e.toNat with
        | some rs => parseLoop t2 (Mode.cls (ranges ++ rs) false) acc
        | none =>
          if isPunct e.toNat then
            parseLoop t2 (Mode.cls (ranges ++ [(e.toNat, e.toNat)]) false) acc
          else Parsed.other
    else if isalnum c ∨ c = 0x5F then
      match t with
      | d :: h :: t3 =>
        if d.toNat = 0x2D then
          if isalnum h.toNat ∧ c ≤ h.toNat then
            parseLoop t3 (Mode.cls (ranges ++ [(c, h.toNat)]) false) acc
          else Parsed.other
        else parseLoop (d :: h :: t3) (Mode.cls (ranges ++ [(c, c)]) false) acc
      | t1 => parseLoop t1 (Mode.cls (ranges ++ [(c, c)]) false) acc
    else Parsed.other

/-- The parse of an expression in the fragment. -/
def parse (expr : GoString) : Parsed := parseLoop expr Mode.top []

/-- Whether a single-rune atom accepts the rune `c`; the anchors accept none. -/
def Atom.accepts : Atom → Nat → Bool
  | Atom.literal r, c => c = r
  | Atom.anyCharNotNL, c => c ≠ 0x0A
  | Atom.charClass ranges, c => ranges.any (fun p => p.1 ≤ c && c ≤ p.2)
  | Atom.beginText, _ => false
  | Atom.endText, _ => false

/-- Zero or more runes accepted by `a`, then the continuation `k`; `atStart`
tells whether the position is still the beginning of the text. -/
def matchStar (a : Atom) (k : Bool → List Nat → Bool) : Bool → List Nat → Bool
  | atStart, [] => k atStart []
  | atStart, c :: cs => k atStart (c :: cs) || (a.accepts c && matchStar a k false cs)

/-- Whether the pieces match a prefix of `input`, the runes from the current
position on. -/
def matchHere : List Piece → Bool → List Nat → Bool
  | [], _, _ => true
  | p :: ps, atStart, input =>
    match p.atom, p.rep with
    | Atom.beginText, _ => atStart && matchHere ps atStart input
    | Atom.endText, _ => input.isEmpty && matchHere ps atStart input
    | a, Rep.one =>
      match input with
      | [] => false
      | c :: cs => a.accepts c && matchHere ps false cs
    | a, Rep.star => matchStar a (matchHere ps) atStart input
    | a, Rep.plus =>
      match input with
      | [] => false
      | c :: cs => a.accepts c && matchStar a (matchHere ps) false cs
    | a, Rep.quest =>
      matchHere ps atStart input ||
        (match input with
          | [] => false
          | c :: cs => a.accepts c && matchHere ps false cs)

/-- Whether the pieces match somewhere in the text: at the current position or
at a later one. -/
def search (ps : List Piece) : Bool → List Nat → Bool
  | atStart, [] => matchHere ps atStart []
  | atStart, c :: cs => matchHere ps atStart (c :: cs) || search ps false cs

/-- A compiled `*regexp.Regexp`, as far as the checker uses it: its method
`MatchString`. -/
structure Regexp where
  MatchString : GoString → Bool

/-- Go `regexp.Compile(expr)`: the compiled expression, or `none` for the nil
pointer that comes with an error.  A compiled expression of the fragment
matches a string when its pieces match somewhere in the runes of the string.
`other` stands for `regexp.Compile` on the expressions outside the fragment. -/
def Compile (other : GoString → Option Regexp) (expr : GoString) : Option Regexp :=
  match parse expr with
  | Parsed.ok ps => some { MatchString := fun s => search ps true (utf8.runes s) }
  | Parsed.error _ => none
  | Parsed.other => other expr

end regexp

/-! ## The checker -/

/-- The Go struct `StringValidityChecker`. -/
structure StringValidityChecker where
  Key : GoString
  Rules : List GoString
  Item : GoString

namespace StringValidityChecker

/-- The checker `StringValidityChecker{Item: s}` with the zero value in the other fields. -/
def ofItem (s : GoString) : StringValidityChecker := { Key := [], Rules := [], Item := s }

/-- `func (v StringValidityChecker) toInt(s string) int`: the value of
`strconv.ParseInt(s, 10, 64)` with the error dropped, converted to `int`. -/
def toInt (_v : StringValidityChecker) (s : GoString) : Int :=
  let out := (strconv.ParseInt s 64).1
  strconv.toGoInt out

/-- `len([]rune(v.Item))`: the length of the item converted to a rune slice. -/
def runeLen (v : StringValidityChecker) : Int := ((utf8.runes v.Item).length : Int)

/-- `func (v StringValidityChecker) ValidateBetween(min string, max string) bool`. -/
def ValidateBetween (v : StringValidityChecker) (min max : GoString) : Bool :=
  let length := v.runeLen
  decide (length > v.toInt min) && decide (length < v.toInt max)

/-- `func (v StringValidityChecker) ValidateBetweenInclusive(min string, max string) bool`. -/
def ValidateBetweenInclusive (v : StringValidityChecker) (min max : GoString) : Bool :=
  let length := v.runeLen
  decide (length ≥ v.toInt min) && decide (length ≤ v.toInt max)

/-- `func (v StringValidityChecker) ValidateLen(length string) bool`. -/
def ValidateLen (v : StringValidityChecker) (length : GoString) : Bool :=
  decide (v.runeLen ≠ v.toInt length)

/-- `func (v StringValidityChecker) ValidateMax(length string) bool`. -/
def ValidateMax (v : StringValidityChecker) (length : GoString) : Bool :=
  decide (v.runeLen ≤ v.toInt length)

/-- `func (v StringValidityChecker) ValidateMin(length string) bool`. -/
def ValidateMin (v : StringValidityChecker) (length : GoString) : Bool :=
  decide (v.runeLen ≥ v.toInt length)

/-- `func (v StringValidityChecker) parseIP() net.IP`. -/
def parseIP (v : StringValidityChecker) : net.IP := net.ParseIP v.Item

/-- `func (v StringValidityChecker) ValidateIpv4() bool`. -/
def ValidateIpv4 (v : StringValidityChecker) : Bool :=
  let parsed := v.parseIP
  parsed.isSome && (net.To4 parsed).isSome

/-- `func (v StringValidityChecker) ValidateIpv6() bool`. -/
def ValidateIpv6 (v : StringValidityChecker) : Bool :=
  let parsed := v.parseIP
  parsed.isSome && (net.To16 parsed).isSome

/-- `func (v StringValidityChecker) ValidateIp() bool`. -/
def ValidateIp (v : StringValidityChecker) : Bool :=
  v.parseIP.isSome

/-- The weight vector `control` of `ValidateCnp`. -/
def control : List Int := [2, 7, 9, 1, 4, 6, 3, 5, 8, 2, 7, 9]

/-- The loop `for i := 0; i < 12; i++` of `ValidateCnp`, with `k` iterations left
and the next one at `i`.  The result is `Sum.inl b` when the loop body
executed `return b`, and `Sum.inr (bigSum, digits)` when the loop ran to its end. -/
def cnpLoop (rawCNP : GoString) :
    Nat → Nat → Int → List Int → Except RuntimeError (Bool ⊕ (Int × List Int))
  | 0, _, bigSum, digits => Except.ok (Sum.inr (bigSum, digits))
  | k + 1, i, bigSum, digits =>
    match index rawCNP i with
    | Except.error e => Except.error e
    | Except.ok b =>
      let r := strconv.Atoi (stringOfByte b)
      match r.2 with
      | some _ => Except.ok (Sum.inl false)
      | none =>
        let current := r.1
        match index control i with
        | Except.error e => Except.error e
        | Except.ok w =>
          let bigSum := bigSum + w * current
          match assign digits i current with
          | Except.error e => Except.error e
          | Except.ok digits => cnpLoop rawCNP k (i + 1) bigSum digits

/-- The `switch digits[0]` of `ValidateCnp`: the century added to the two-digit
year; `nowYear` is `time.Now().Year()`. -/
def resolveYear (sex year nowYear : Int) : Int :=
  if sex = 1 ∨ sex = 2 then year + 1900
  else if sex = 3 ∨ sex = 4 then year + 1800
  else if sex = 5 ∨ sex = 6 then year + 2000
  else if sex = 7 ∨ sex = 8 ∨ sex = 9 then
    if year + 2000 > nowYear - 14 then year + 2000 - 100 else year + 2000
  else year

/-- The part of `ValidateCnp` after the digit loop.  The calendar check with
`time.Date` only logs and is left out. -/
def cnpChecks (rawCNP : GoString) (nowYear bigSum : Int) (digits : List Int) :
    Except RuntimeError Bool := do
  let d0 ← index digits 0
  if d0 = 0 then pure false
  else
    let d1 ← index digits 1
    let d2 ← index digits 2
    let year := resolveYear d0 (d1 * 10 + d2) nowYear
    if year < 1800 ∨ year > 2099 then pure false
    else
      let d3 ← index digits 3
      let d4 ← index digits 4
      let month := d3 * 10 + d4
      if month < 1 ∨ month > 12 then pure false
      else
        let d5 ← index digits 5
        let d6 ← index digits 6
        let _day := d5 * 10 + d6
        let d7 ← index digits 7
        let d8 ← index digits 8
        let county := d7 * 10 + d8
        if county < 1 ∨ county > 52 then pure false
        else
          let d9 ← index digits 9
          let d10 ← index digits 10
          let d11 ← index digits 11
          let number := d9 * 100 + d10 * 10 + d11
          if number < 1 ∨ number > 999 then pure false
          else
            let ctrlDigit := Int.tmod bigSum 11
            let ctrlDigit := if ctrlDigit = 10 then 1 else ctrlDigit
            let last ← index rawCNP 12
            pure (decide (strconv.Itoa ctrlDigit = stringOfByte last))

/-- `func (v StringValidityChecker) ValidateCnp() bool`, with the current year
`time.Now().Year()` as the parameter `nowYear`.  `digits` starts as the empty
slice `[]int{}`. -/
def ValidateCnp (v : StringValidityChecker) (nowYear : Int) : Except RuntimeError Bool :=
  let rawCNP := v.Item
  match cnpLoop rawCNP 12 0 0 [] with
  | Except.error e => Except.error e
  | Except.ok (Sum.inl b) => Except.ok b
  | Except.ok (Sum.inr (bigSum, digits)) => cnpChecks rawCNP nowYear bigSum digits

end StringValidityChecker

namespace StringValidityChecker

/-- `func (v StringValidityChecker) GetErrors() []string`.  `GetCheckerErrors`
is declared in another file of the package and is a parameter here; the slice
expression `v.Rules[1:]` panics on an empty `Rules`. -/
def GetErrors (v : StringValidityChecker)
    (GetCheckerErrors : List GoString → StringValidityChecker →
      Except RuntimeError (List GoString)) : Except RuntimeError (List GoString) :=
  match v.Rules with
  | [] => Except.error (RuntimeError.sliceBoundsOutOfRange 1 0)
  | _ :: rules => GetCheckerErrors rules v

/-- `func (v StringValidityChecker) checkRegexp(r string) bool`: the error of
`regexp.Compile` is dropped, and `MatchString` on the nil pointer of a failed
compilation panics. -/
def checkRegexp (v : StringValidityChecker) (other : GoString → Option regexp.Regexp)
    (r : GoString) : Except RuntimeError Bool :=
  match regexp.Compile other r with
  | none => Except.error RuntimeError.nilDereference
  | some expression => Except.ok (expression.MatchString v.Item)

/-- `func (v StringValidityChecker) ValidateAlpha() bool`. -/
def ValidateAlpha (v : StringValidityChecker) (other : GoString → Option regexp.Regexp) :
    Except RuntimeError Bool :=
  v.checkRegexp other (lit "^[A-Za-z]*$")

/-- `func (v StringValidityChecker) ValidateAlphaDash() bool`. -/
def ValidateAlphaDash (v : StringValidityChecker) (other : GoString → Option regexp.Regexp) :
    Except RuntimeError Bool :=
  v.checkRegexp other (lit "^[A-Za-z0-9\\-_]*$")

/-- `func (v StringValidityChecker) ValidateAlphaNum() bool`. -/
def ValidateAlphaNum (v : StringValidityChecker) (other : GoString → Option regexp.Regexp) :
    Except RuntimeError Bool :=
  v.checkRegexp other (lit "^[A-Za-z0-9]*$")

/-- `func (v StringValidityChecker) ValidateEmail() bool`. -/
def ValidateEmail (v : StringValidityChecker) (other : GoString → Option regexp.Regexp) :
    Except RuntimeError Bool :=
  v.checkRegexp other (lit "^.+\\@.+\\..+$")

/-- `func (v StringValidityChecker) ValidateFullName() bool`. -/
def ValidateFullName (v : StringValidityChecker) (other : GoString → Option regexp.Regexp) :
    Except RuntimeError Bool :=
  v.checkRegexp other (lit "^[A-Za-z0-9\\s\\.]*$")

/-- `func (v StringValidityChecker) ValidateRegexp(r string) bool`. -/
def ValidateRegexp (v : StringValidityChecker) (other : GoString → Option regexp.Regexp)
    (r : GoString) : Except RuntimeError Bool :=
  v.checkRegexp other r

end StringValidityChecker

/-! # Theorems -/

/-! ### `unicode/utf8` -/

/-- A number below 256 survives the conversion to a byte. -/
theorem utf8.toNat_ofNat_lt (n : Nat) (h : n < 256) : (UInt8.ofNat n).toNat = n := by
  show (OfNat.ofNat n : UInt8).toNat = n
  rw [UInt8.toNat_ofNat]; exact Nat.mod_eq_of_lt h

/-- The entries of `utf8.first` for ASCII bytes. -/
theorem utf8.first_ascii (b : Nat) (h : b < 0x80) : utf8.first b = 0xF0 := by
  simp (disch := omega) only [utf8.first, if_pos, if_neg]

/-- The entries of `utf8.first` for the leading bytes of 2-byte encodings. -/
theorem utf8.first_two (b : Nat) (h : 0xC2 ≤ b) (h2 : b < 0xE0) : utf8.first b = 0x02 := by
  simp (disch := omega) only [utf8.first, if_pos, if_neg]

/-- The entries of `utf8.first` for the leading bytes `E1..EC`, `EE`, `EF`. -/
theorem utf8.first_three (b : Nat) (h : 0xE1 ≤ b) (h2 : b < 0xF0) (h3 : b ≠ 0xED) :
    utf8.first b = 0x03 := by
  simp (disch := omega) only [utf8.first, if_pos, if_neg, ite_self]

/-- The entries of `utf8.first` for the leading bytes `F1..F3`. -/
theorem utf8.first_four (b : Nat) (h : 0xF1 ≤ b) (h2 : b < 0xF4) : utf8.first b = 0x04 := by
  simp (disch := omega) only [utf8.first, if_pos, if_neg]

/-- Decoding a 1-byte encoding. -/
theorem utf8.decode_one (n : Nat) (rest : GoString) (h1 : n ≤ 0x7F) :
    utf8.DecodeRuneInString ([UInt8.ofNat n] ++ rest) = (n, 1) := by
  have e0 := utf8.toNat_ofNat_lt n (by omega)
  have hf := utf8.first_ascii n (by omega)
  simp [utf8.DecodeRuneInString, utf8.byteAt, e0, hf]

/-- Decoding a 2-byte encoding. -/
theorem utf8.decode_two (n : Nat) (rest : GoString) (h1 : ¬ n ≤ 0x7F) (h2 : n ≤ 0x7FF) :
    utf8.DecodeRuneInString
      ([UInt8.ofNat (0xC0 + n / 64), UInt8.ofNat (0x80 + n % 64)] ++ rest) = (n, 2) := by
  have e0 := utf8.toNat_ofNat_lt (0xC0 + n / 64) (by omega)
  have e1 := utf8.toNat_ofNat_lt (0x80 + n % 64) (by omega)
  have hf := utf8.first_two (0xC0 + n / 64) (by omega) (by omega)
  simp [utf8.DecodeRuneInString, utf8.byteAt, e0, e1, hf, utf8.acceptRanges]
  simp (disch := omega) only [if_neg, Prod.mk.injEq, and_true]
  omega

/-- Decoding a 3-byte encoding of a non-surrogate. -/
theorem utf8.decode_three (n : Nat) (rest : GoString) (h1 : ¬ n ≤ 0x7FF) (h2 : n ≤ 0xFFFF)
    (h3 : ¬ (0xD800 ≤ n ∧ n ≤ 0xDFFF)) :
    utf8.DecodeRuneInString
      ([UInt8.ofNat (0xE0 + n / 4096), UInt8.ofNat (0x80 + n / 64 % 64),
        UInt8.ofNat (0x80 + n % 64)] ++ rest) = (n, 3) := by
  have e0 := utf8.toNat_ofNat_lt (0xE0 + n / 4096) (by omega)
  have e1 := utf8.toNat_ofNat_lt (0x80 + n / 64 % 64) (by omega)
  have e2 := utf8.toNat_ofNat_lt (0x80 + n % 64) (by omega)
  by_cases q0 : n / 4096 = 0
  · have hf : utf8.first (0xE0 + n / 4096) = 0x13 := by rw [q0]; rfl
    simp [utf8.DecodeRuneInString, utf8.byteAt, e0, e1, e2, hf, utf8.acceptRanges]
    simp (disch := omega) only [if_neg, Prod.mk.injEq, and_true]
    omega
  · by_cases q13 : n / 4096 = 13
    · have hf : utf8.first (0xE0 + n / 4096) = 0x23 := by rw [q13]; rfl
      simp [utf8.DecodeRuneInString, utf8.byteAt, e0, e1, e2, hf, utf8.acceptRanges]
      simp (disch := omega) only [if_neg, Prod.mk.injEq, and_true]
      omega
    · have hf := utf8.first_three (0xE0 + n / 4096) (by omega) (by omega) (by omega)
      simp [utf8.DecodeRuneInString, utf8.byteAt, e0, e1, e2, hf, utf8.acceptRanges]
      simp (disch := omega) only [if_neg, Prod.mk.injEq, and_true]
      omega

/-- Decoding a 4-byte encoding. -/
theorem utf8.decode_four (n : Nat) (rest : GoString) (h1 : ¬ n ≤ 0xFFFF) (h2 : n ≤ 0x10FFFF) :
    utf8.DecodeRuneInString
      ([UInt8.ofNat (0xF0 + n / 262144), UInt8.ofNat (0x80 + n / 4096 % 64),
        UInt8.ofNat (0x80 + n / 64 % 64), UInt8.ofNat (0x80 + n % 64)] ++ rest) = (n, 4) := by
  have e0 := utf8.toNat_ofNat_lt (0xF0 + n / 262144) (by omega)
  have e1 := utf8.toNat_ofNat_lt (0x80 + n / 4096 % 64) (by omega)
  have e2 := utf8.toNat_ofNat_lt (0x80 + n / 64 % 64) (by omega)
  have e3 := utf8.toNat_ofNat_lt (0x80 + n % 64) (by omega)
  by_cases q0 : n / 262144 = 0
  · have hf : utf8.first (0xF0 + n / 262144) = 0x34 := by rw [q0]; rfl
    simp [utf8.DecodeRuneInString, utf8.byteAt, e0, e1, e2, e3, hf, utf8.acceptRanges]
    simp (disch := omega) only [if_neg, Prod.mk.injEq, and_true]
    omega
  · by_cases q4 : n / 262144 = 4
    · have hf : utf8.first (0xF0 + n / 262144) = 0x44 := by rw [q4]; rfl
      simp [utf8.DecodeRuneInString, utf8.byteAt, e0, e1, e2, e3, hf, utf8.acceptRanges]
      simp (disch := omega) only [if_neg, Prod.mk.injEq, and_true]
      omega
    · have hf := utf8.first_four (0xF0 + n / 262144) (by omega) (by omega)
      simp [utf8.DecodeRuneInString, utf8.byteAt, e0, e1, e2, e3, hf, utf8.acceptRanges]
      simp (disch := omega) only [if_neg, Prod.mk.injEq, and_true]
      omega

/-- `DecodeRuneInString` reads back the scalar value that `AppendRune` wrote,
with the width of its encoding, whatever follows. -/
theorem utf8.decode_append (c : Char) (rest : GoString) :
    utf8.DecodeRuneInString (utf8.AppendRune c.toNat ++ rest)
      = (c.toNat, (utf8.AppendRune c.toNat).length) := by
  have hv : c.toNat < 0xD800 ∨ (0xDFFF < c.toNat ∧ c.toNat < 0x110000) := c.valid
  generalize c.toNat = n at hv
  unfold utf8.AppendRune
  by_cases h1 : n ≤ 0x7F
  · rw [if_pos h1]; exact utf8.decode_one n rest h1
  · rw [if_neg h1]
    by_cases h2 : n ≤ 0x7FF
    · rw [if_pos h2]; exact utf8.decode_two n rest h1 h2
    · rw [if_neg h2]
      have h3 : ¬ (n > utf8.MaxRune ∨ (0xD800 ≤ n ∧ n ≤ 0xDFFF)) := by
        simp only [utf8.MaxRune]; omega
      rw [if_neg h3]
      by_cases h4 : n ≤ 0xFFFF
      · rw [if_pos h4]; exact utf8.decode_three n rest h2 h4 (by omega)
      · rw [if_neg h4]; exact utf8.decode_four n rest h4 (by omega)

/-- Every encoding has at least one byte. -/
theorem utf8.appendRune_ne_nil (n : Nat) : utf8.AppendRune n ≠ [] := by
  unfold utf8.AppendRune
  split_ifs <;> simp

/-- The encoding of a sequence starts with the encoding of its head. -/
theorem utf8.encode_cons (c : Char) (cs : List Char) :
    utf8.encode (c :: cs) = utf8.AppendRune c.toNat ++ utf8.encode cs := by
  simp [utf8.encode]

/-- With at least `len(s)` rounds the rune loop returns the scalar values that
were encoded. -/
theorem utf8.runesLoop_encode (cs : List Char) :
    ∀ fuel, (utf8.encode cs).length ≤ fuel →
      utf8.runesLoop fuel (utf8.encode cs) = cs.map Char.toNat := by
  induction cs with
  | nil =>
    intro fuel _
    cases fuel <;> simp [utf8.encode, utf8.runesLoop]
  | cons c cs ih =>
    intro fuel hfuel
    rw [utf8.encode_cons] at hfuel ⊢
    have hd := utf8.decode_append c (utf8.encode cs)
    obtain ⟨b, t, hbt⟩ := List.exists_cons_of_ne_nil (utf8.appendRune_ne_nil c.toNat)
    cases fuel with
    | zero => rw [hbt] at hfuel; simp at hfuel
    | succ f =>
      have hstep : utf8.runesLoop (f + 1) (utf8.AppendRune c.toNat ++ utf8.encode cs)
          = (utf8.DecodeRuneInString (utf8.AppendRune c.toNat ++ utf8.encode cs)).1 ::
            utf8.runesLoop f ((utf8.AppendRune c.toNat ++ utf8.encode cs).drop
              (utf8.DecodeRuneInString (utf8.AppendRune c.toNat ++ utf8.encode cs)).2) := by
        rw [hbt]; rfl
      rw [hstep, hd]
      simp only [List.drop_left, List.map_cons]
      rw [ih f]
      rw [hbt] at hfuel
      simp only [List.length_append, List.length_cons] at hfuel
      omega

/-- The conversion `[]rune(s)` of a valid UTF-8 string is the sequence of its code points. -/
theorem utf8.runes_encode (cs : List Char) : utf8.runes (utf8.encode cs) = cs.map Char.toNat :=
  utf8.runesLoop_encode cs _ (Nat.le_refl _)

/-! ### `strconv` -/

/-- The cutoff of `ParseUint` in base 10: the least `n` with `n * 10 > maxUint64`. -/
theorem strconv.cutoff_eq : (2 ^ 64 - 1) / 10 + 1 = 1844674407370955162 := by norm_num

/-- The digit loop over a concatenation: run it over the first part and, unless
that failed, go on over the second. -/
theorem strconv.parseUintLoop_append (cutoff maxVal : Nat) (xs ys : GoString) :
    ∀ n, strconv.parseUintLoop cutoff maxVal (xs ++ ys) n =
      match strconv.parseUintLoop cutoff maxVal xs n with
      | (n1, none) => strconv.parseUintLoop cutoff maxVal ys n1
      | r => r := by
  induction xs with
  | nil => intro n; simp [strconv.parseUintLoop]
  | cons c xs ih =>
    intro n
    simp only [List.cons_append, strconv.parseUintLoop]
    split
    · rfl
    · split_ifs
      · rfl
      · rfl
      · rfl
      · exact ih _


/-- One round of the digit loop on a decimal digit: the overflow tests fire
exactly when `n * 10 + d` does not fit in 64 bits. -/
theorem strconv.parseUintLoop_digit (d n : Nat) (hd : d < 10) (hn : n < 2 ^ 64) :
    strconv.parseUintLoop ((2 ^ 64 - 1) / 10 + 1) (2 ^ 64 - 1) [UInt8.ofNat (0x30 + d)] n =
      if n * 10 + d < 2 ^ 64 then (n * 10 + d, none)
      else (2 ^ 64 - 1, some strconv.NumError.ErrRange) := by
  have e0 := utf8.toNat_ofNat_lt (0x30 + d) (by omega)
  rw [strconv.cutoff_eq]
  simp only [strconv.parseUintLoop, e0]
  rw [if_pos (by omega)]
  simp only [Nat.add_sub_cancel_left]
  rw [if_neg (by omega)]
  by_cases hc : n ≥ 1844674407370955162
  · rw [if_pos hc, if_neg (by omega)]
  · rw [if_neg hc]
    by_cases hs : n * 10 + d < 2 ^ 64
    · rw [if_pos hs, if_neg (by omega)]
      congr 1
      omega
    · rw [if_neg hs, if_pos (by omega)]

/-- The digit loop reads back the number that `formatDigits` wrote, or reports
the range error when it does not fit in 64 bits. -/
theorem strconv.formatDigits_parse :
    ∀ fuel u, u < fuel →
      strconv.parseUintLoop ((2 ^ 64 - 1) / 10 + 1) (2 ^ 64 - 1) (strconv.formatDigits fuel u) 0 =
        if u < 2 ^ 64 then (u, none) else (2 ^ 64 - 1, some strconv.NumError.ErrRange) := by
  intro fuel
  induction fuel with
  | zero => intro u hu; omega
  | succ f ih =>
    intro u hu
    unfold strconv.formatDigits
    by_cases h10 : u < 10
    · rw [if_pos h10, strconv.parseUintLoop_digit u 0 h10 (by norm_num)]
      rw [if_pos (by omega), if_pos (by omega)]
      simp
    · rw [if_neg h10, strconv.parseUintLoop_append, ih (u / 10) (by omega)]
      by_cases hq : u / 10 < 2 ^ 64
      · rw [if_pos hq]
        simp only
        rw [strconv.parseUintLoop_digit (u % 10) (u / 10) (by omega) hq]
        have hu10 : u / 10 * 10 + u % 10 = u := by omega
        rw [hu10]
      · rw [if_neg hq, if_neg (by omega)]

/-- With fuel left, `formatDigits` is not empty and starts with a digit. -/
theorem strconv.formatDigits_head :
    ∀ fuel u, ∃ c t, strconv.formatDigits (fuel + 1) u = c :: t ∧
      0x30 ≤ c.toNat ∧ c.toNat ≤ 0x39 := by
  intro fuel
  induction fuel with
  | zero =>
    intro u
    unfold strconv.formatDigits
    by_cases h10 : u < 10
    · rw [if_pos h10]
      exact ⟨_, _, rfl, by rw [utf8.toNat_ofNat_lt (0x30 + u) (by omega)]; omega⟩
    · rw [if_neg h10]
      refine ⟨_, _, rfl, ?_⟩
      rw [utf8.toNat_ofNat_lt (0x30 + u % 10) (by omega)]; omega
  | succ f ih =>
    intro u
    unfold strconv.formatDigits
    by_cases h10 : u < 10
    · rw [if_pos h10]
      exact ⟨_, _, rfl, by rw [utf8.toNat_ofNat_lt (0x30 + u) (by omega)]; omega⟩
    · rw [if_neg h10]
      obtain ⟨c, t, hct, hc⟩ := ih (u / 10)
      rw [hct]
      exact ⟨c, _, rfl, hc⟩


/-- Wrapping to 64 bits leaves the `int64` values alone. -/
theorem strconv.bmod_of_range (x : Int) (h1 : -2 ^ 63 ≤ x) (h2 : x < 2 ^ 63) :
    Int.bmod x (2 ^ 64) = x := by
  unfold Int.bmod
  norm_num at h1 h2 ⊢
  split_ifs <;> omega

/-- `int64(x)` is `x` on the `int64` range. -/
theorem strconv.toInt64_of_range (x : Int) (h1 : -2 ^ 63 ≤ x) (h2 : x < 2 ^ 63) :
    strconv.toInt64 x = x := strconv.bmod_of_range x h1 h2

/-- `int(x)` is `x` on the `int64` range. -/
theorem strconv.toGoInt_of_range (x : Int) (h1 : -2 ^ 63 ≤ x) (h2 : x < 2 ^ 63) :
    strconv.toGoInt x = x := strconv.bmod_of_range x h1 h2

/-- The negation `-int64(un)` as `ParseInt` computes it, for `un` up to `2^63`. -/
theorem strconv.toInt64_neg_toInt64 (un : Nat) (h : un ≤ 2 ^ 63) :
    strconv.toInt64 (-(strconv.toInt64 (un : Int))) = -(un : Int) := by
  by_cases hlt : un < 2 ^ 63
  · rw [strconv.toInt64_of_range (un : Int) (by omega) (by exact_mod_cast hlt)]
    exact strconv.toInt64_of_range _ (by omega) (by omega)
  · have hu : un = 2 ^ 63 := by omega
    subst hu
    decide

/-- `ParseUint` on the digits of `u`: `u`, or the range error with the largest `uint64`. -/
theorem strconv.ParseUint_formatDigits (fuel u : Nat) (h : u < fuel) :
    strconv.ParseUint (strconv.formatDigits fuel u) 64 =
      if u < 2 ^ 64 then (u, none) else (2 ^ 64 - 1, some strconv.NumError.ErrRange) := by
  obtain ⟨f, rfl⟩ : ∃ f, fuel = f + 1 := ⟨fuel - 1, by omega⟩
  obtain ⟨c, t, hct, _⟩ := strconv.formatDigits_head f u
  have hp := strconv.formatDigits_parse (f + 1) u h
  unfold strconv.ParseUint
  rw [if_neg (by rw [hct]; simp)]
  simp only [show ¬ (64 = 0) by decide, if_false, gt_iff_lt, lt_self_iff_false]
  exact hp

/-- The value `strconv.ParseInt` returns for the decimal string of any integer
is the integer clamped to the `int64` range. -/
theorem strconv.ParseInt_decimal (k : Int) :
    (strconv.ParseInt (strconv.decimal k) 64).1 = max (-2 ^ 63) (min k (2 ^ 63 - 1)) := by
  have h63 : (2 : Nat) ^ (64 - 1) = 9223372036854775808 := by norm_num
  have h64 : (2 : Nat) ^ 64 = 18446744073709551616 := by norm_num
  have hp := strconv.ParseUint_formatDigits (k.natAbs + 1) k.natAbs (by omega)
  unfold strconv.decimal
  by_cases hneg : k < 0
  · rw [if_pos hneg]
    have e0 : (UInt8.ofNat 0x2D).toNat = 0x2D := by decide
    simp only [strconv.ParseInt, e0]
    simp only [show ¬ ((0x2D : Nat) = 0x2B) by decide, if_false, if_true, hp]
    by_cases hu : k.natAbs < 2 ^ 64
    · rw [if_pos hu]
      simp only [show ¬ (64 = 0) by decide, if_false, not_true_eq_false, false_and, true_and, h63]
      by_cases hc : k.natAbs > 9223372036854775808
      · rw [if_pos hc]
        simp only [Nat.cast_ofNat]
        omega
      · rw [if_neg hc]
        simp only
        rw [strconv.toInt64_neg_toInt64 _ (by omega)]
        omega
    · rw [if_neg hu]
      simp only [show ¬ (64 = 0) by decide, if_false, not_true_eq_false, false_and, true_and, h63]
      rw [if_pos (by omega)]
      simp only [Nat.cast_ofNat]
      omega
  · rw [if_neg hneg]
    obtain ⟨c, t, hct, hc1, hc2⟩ := strconv.formatDigits_head k.natAbs k.natAbs
    rw [hct] at hp ⊢
    simp only [strconv.ParseInt]
    simp only [show ¬ (c.toNat = 0x2B) by omega, show ¬ (c.toNat = 0x2D) by omega, if_false, hp]
    by_cases hu : k.natAbs < 2 ^ 64
    · rw [if_pos hu]
      simp only [show ¬ (64 = 0) by decide, if_false, not_false_eq_true, false_and, true_and, h63]
      by_cases hc : k.natAbs ≥ 9223372036854775808
      · rw [if_pos hc]
        simp only [Nat.cast_ofNat]
        omega
      · rw [if_neg hc]
        simp only
        rw [strconv.toInt64_of_range _ (by omega) (by omega)]
        omega
    · rw [if_neg hu]
      simp only [show ¬ (64 = 0) by decide, if_false, not_false_eq_true, false_and, true_and, h63]
      rw [if_pos (by omega)]
      simp only [Nat.cast_ofNat]
      omega


/-- The digit loop never reports a bit-size error. -/
theorem strconv.parseUintLoop_err (cutoff maxVal : Nat) (s : GoString) :
    ∀ n, (strconv.parseUintLoop cutoff maxVal s n).2 ≠ some strconv.NumError.ErrBitSize := by
  induction s with
  | nil => intro n; simp [strconv.parseUintLoop]
  | cons c s ih =>
    intro n
    simp only [strconv.parseUintLoop]
    split
    · simp
    · split_ifs
      · simp
      · simp
      · simp
      · exact ih _

/-- `ParseUint(s, 10, 64)` never reports a bit-size error. -/
theorem strconv.ParseUint_err (s : GoString) :
    (strconv.ParseUint s 64).2 ≠ some strconv.NumError.ErrBitSize := by
  unfold strconv.ParseUint
  simp only [show ¬ (64 = 0) by decide, if_false, gt_iff_lt, lt_self_iff_false]
  split_ifs
  · simp
  · exact strconv.parseUintLoop_err _ _ s 0

/-- The three outcomes of `strconv.ParseInt(s, 10, 64)`: a syntax error with
value 0, a range error with the nearest bound, or success with an `int64` value. -/
theorem strconv.ParseInt_cases (s : GoString) :
    ((strconv.ParseInt s 64).2 = some strconv.NumError.ErrSyntax ∧
        (strconv.ParseInt s 64).1 = 0) ∨
      ((strconv.ParseInt s 64).2 = some strconv.NumError.ErrRange ∧
        ((strconv.ParseInt s 64).1 = 2 ^ 63 - 1 ∨ (strconv.ParseInt s 64).1 = -2 ^ 63)) ∨
      ((strconv.ParseInt s 64).2 = none ∧
        -2 ^ 63 ≤ (strconv.ParseInt s 64).1 ∧ (strconv.ParseInt s 64).1 < 2 ^ 63) := by
  have h63 : (2 : Nat) ^ (64 - 1) = 9223372036854775808 := by norm_num
  cases s with
  | nil => left; exact ⟨rfl, rfl⟩
  | cons c t =>
    simp only [strconv.ParseInt]
    generalize hr : strconv.ParseUint (if c.toNat = 0x2B then t else if c.toNat = 0x2D then t
      else c :: t) 64 = r
    have hbs : r.2 ≠ some strconv.NumError.ErrBitSize := by rw [← hr]; exact strconv.ParseUint_err _
    obtain ⟨un, err⟩ := r
    simp only at hbs ⊢
    rcases err with _ | e
    · simp only [show ¬ (64 = 0) by decide, if_false, h63]
      by_cases hneg : c.toNat = 0x2D
      · simp only [hneg, not_true_eq_false, false_and, if_false, true_and, if_true]
        by_cases hc : un > 9223372036854775808
        · rw [if_pos hc]; right; left
          simp only [Nat.cast_ofNat]
          exact ⟨trivial, Or.inr (by norm_num)⟩
        · rw [if_neg hc]; right; right
          simp only
          rw [strconv.toInt64_neg_toInt64 un (by omega)]
          exact ⟨trivial, by omega, by omega⟩
      · simp only [hneg, not_false_eq_true, true_and, false_and, if_false]
        by_cases hc : un ≥ 9223372036854775808
        · rw [if_pos hc]; right; left
          simp only [Nat.cast_ofNat]
          exact ⟨trivial, Or.inl (by norm_num)⟩
        · rw [if_neg hc]; right; right
          simp only
          rw [strconv.toInt64_of_range (un : Int) (by omega) (by omega)]
          exact ⟨trivial, by omega, by omega⟩
    · cases e with
      | ErrSyntax => left; exact ⟨rfl, rfl⟩
      | ErrBitSize => exact absurd rfl hbs
      | ErrRange =>
        simp only [show ¬ (64 = 0) by decide, if_false, h63]
        by_cases hneg : c.toNat = 0x2D
        · simp only [hneg, not_true_eq_false, false_and, if_false, true_and, if_true]
          by_cases hc : un > 9223372036854775808
          · rw [if_pos hc]; right; left
            simp only [Nat.cast_ofNat]
            exact ⟨trivial, Or.inr (by norm_num)⟩
          · rw [if_neg hc]; right; right
            simp only
            rw [strconv.toInt64_neg_toInt64 un (by omega)]
            exact ⟨trivial, by omega, by omega⟩
        · simp only [hneg, not_false_eq_true, true_and, false_and, if_false]
          by_cases hc : un ≥ 9223372036854775808
          · rw [if_pos hc]; right; left
            simp only [Nat.cast_ofNat]
            exact ⟨trivial, Or.inl (by norm_num)⟩
          · rw [if_neg hc]; right; right
            simp only
            rw [strconv.toInt64_of_range (un : Int) (by omega) (by omega)]
            exact ⟨trivial, by omega, by omega⟩


/-- `ParseInt` reports a syntax error on the empty string and on every string
whose first byte is neither a sign nor a decimal digit. -/
theorem strconv.ParseInt_syntax_error (s : GoString)
    (h : s = [] ∨ ∃ c t, s = c :: t ∧ c.toNat ≠ 0x2B ∧ c.toNat ≠ 0x2D ∧
      ¬ (0x30 ≤ c.toNat ∧ c.toNat ≤ 0x39)) :
    (strconv.ParseInt s 64).2 = some strconv.NumError.ErrSyntax := by
  rcases h with rfl | ⟨c, t, rfl, h1, h2, h3⟩
  · rfl
  · have hu : strconv.ParseUint (c :: t) 64 = (0, some strconv.NumError.ErrSyntax) := by
      unfold strconv.ParseUint
      rw [if_neg (by simp)]
      simp only [show ¬ (64 = 0) by decide, if_false, gt_iff_lt, lt_self_iff_false,
        strconv.parseUintLoop, if_neg h3]
      split
      · rfl
      · rename_i d heq
        have hd10 : d ≥ 10 := by
          by_cases hl : 0x61 ≤ strconv.lower c.toNat ∧ strconv.lower c.toNat ≤ 0x7A
          · rw [if_pos hl] at heq
            simp only [Option.some.injEq] at heq
            omega
          · rw [if_neg hl] at heq
            exact absurd heq (by simp)
        rw [if_pos hd10]
    simp only [strconv.ParseInt, if_neg h1, if_neg h2, hu]

/-! ## The checker: conversion of rule arguments -/

namespace StringValidityChecker

/-- `toInt` of the decimal string of an integer is the integer clamped to `int64`. -/
theorem toInt_decimal (v : StringValidityChecker) (k : Int) :
    v.toInt (strconv.decimal k) = max (-2 ^ 63) (min k (2 ^ 63 - 1)) := by
  unfold toInt
  simp only
  rw [strconv.ParseInt_decimal]
  exact strconv.toGoInt_of_range _ (by omega) (by omega)

/-- `toInt` is 0 on every string that `ParseInt` rejects with a syntax error. -/
theorem toInt_of_syntax_error (v : StringValidityChecker) (s : GoString)
    (h : (strconv.ParseInt s 64).2 = some strconv.NumError.ErrSyntax) : v.toInt s = 0 := by
  unfold toInt
  rcases strconv.ParseInt_cases s with ⟨_, h0⟩ | ⟨he, _⟩ | ⟨he, _⟩
  · simp only [h0]; decide
  · rw [he] at h; exact absurd h (by decide)
  · rw [he] at h; exact absurd h (by decide)

/-- `toInt` is a bound of `int64` on every string that `ParseInt` rejects with a range error. -/
theorem toInt_of_range_error (v : StringValidityChecker) (s : GoString)
    (h : (strconv.ParseInt s 64).2 = some strconv.NumError.ErrRange) :
    v.toInt s = 2 ^ 63 - 1 ∨ v.toInt s = -2 ^ 63 := by
  unfold toInt
  rcases strconv.ParseInt_cases s with ⟨he, _⟩ | ⟨_, h0 | h0⟩ | ⟨he, _⟩
  · rw [he] at h; exact absurd h (by decide)
  · left; simp only [h0]; decide
  · right; simp only [h0]; decide
  · rw [he] at h; exact absurd h (by decide)

/-- `len([]rune(v.Item))` of a valid UTF-8 item is its number of code points. -/
theorem runeLen_encode (v : StringValidityChecker) (cs : List Char)
    (h : v.Item = utf8.encode cs) : v.runeLen = (cs.length : Int) := by
  unfold runeLen
  rw [h, utf8.runes_encode, List.length_map]

/-! ## The CNP validator -/

/-- C1 (code defect): on the reference string `1960101415229`, whose fields are
in range and whose 13th character is the control digit 9, `ValidateCnp` stops
with an index-out-of-range panic at the first `digits[i] = current`, because
`digits` is the empty slice; it does not return true.  With a 12-element
`digits` the same loop and checks do return true on this string. -/
theorem ValidateCnp_reference_panics (nowYear : Int) :
    (ofItem (lit "1960101415229")).ValidateCnp nowYear
        = Except.error (RuntimeError.indexOutOfRange 0 0) ∧
      cnpLoop (lit "1960101415229") 12 0 0 (List.replicate 12 0)
        = Except.ok (Sum.inr (196, [1, 9, 6, 0, 1, 0, 1, 4, 1, 5, 2, 2])) ∧
      cnpChecks (lit "1960101415229") nowYear 196 [1, 9, 6, 0, 1, 0, 1, 4, 1, 5, 2, 2]
        = Except.ok true :=
  ⟨rfl, by decide, rfl⟩

/-- C2 (code defect): `ValidateCnp` does not always end with a boolean.  On the
empty item it panics with index out of range at `rawCNP[0]`, and on the short
item `19` it panics at `digits[0] = current`. -/
theorem ValidateCnp_empty_panics (nowYear : Int) :
    (ofItem []).ValidateCnp nowYear = Except.error (RuntimeError.indexOutOfRange 0 0) ∧
      (ofItem (lit "19")).ValidateCnp nowYear
        = Except.error (RuntimeError.indexOutOfRange 0 0) :=
  ⟨rfl, rfl⟩

/-- C3 (code defect): on the 13-character item `1a34567890123`, whose second
character is not a digit, `ValidateCnp` panics at `digits[0] = current` before
it reads the letter; it does not return false.  (When the non-digit is the
first byte, as in `a234567890123`, it does return false.) -/
theorem ValidateCnp_nondigit_panics (nowYear : Int) :
    (ofItem (lit "1a34567890123")).ValidateCnp nowYear
        = Except.error (RuntimeError.indexOutOfRange 0 0) ∧
      (ofItem (lit "a234567890123")).ValidateCnp nowYear = Except.ok false :=
  ⟨rfl, rfl⟩

/-! ## `toInt` on malformed arguments -/

/-- C4 (as stated, refuted): the numeral `9223372036854775808` is outside the
`int64` range, `ParseInt` fails on it with a range error, and `toInt` returns
`9223372036854775807`, not 0; so `ValidateMax` with this argument accepts a
five-character item that the bound 0 rejects. -/
theorem toInt_out_of_range_ne_zero :
    (strconv.ParseInt (lit "9223372036854775808") 64).2 = some strconv.NumError.ErrRange ∧
      (ofItem (lit "hello")).toInt (lit "9223372036854775808") = 9223372036854775807 ∧
      ¬ ((ofItem (lit "hello")).toInt (lit "9223372036854775808") = 0) ∧
      (ofItem (lit "hello")).ValidateMax (lit "9223372036854775808") = true ∧
      (ofItem (lit "hello")).ValidateMax (lit "0") = false := by
  decide

/-- C4 (amended): when `ParseInt` rejects the argument with a syntax error (the
empty string, text that does not start with a sign or a digit) `toInt` returns
0 and every length rule behaves as with the bound `0`; when `ParseInt` rejects
it with a range error (a numeral outside `int64`) `toInt` returns the nearest
bound, `2^63 - 1` or `-2^63`.  No other error occurs. -/
theorem toInt_parse_failure (v : StringValidityChecker) (s : GoString) :
    ((strconv.ParseInt s 64).2 = some strconv.NumError.ErrSyntax →
        v.toInt s = 0 ∧
        (∀ a, v.ValidateBetween s a = v.ValidateBetween (lit "0") a) ∧
        (∀ a, v.ValidateBetween a s = v.ValidateBetween a (lit "0")) ∧
        (∀ a, v.ValidateBetweenInclusive s a = v.ValidateBetweenInclusive (lit "0") a) ∧
        (∀ a, v.ValidateBetweenInclusive a s = v.ValidateBetweenInclusive a (lit "0")) ∧
        v.ValidateLen s = v.ValidateLen (lit "0") ∧
        v.ValidateMax s = v.ValidateMax (lit "0") ∧
        v.ValidateMin s = v.ValidateMin (lit "0")) ∧
      ((strconv.ParseInt s 64).2 = some strconv.NumError.ErrRange →
        v.toInt s = 2 ^ 63 - 1 ∨ v.toInt s = -2 ^ 63) ∧
      (strconv.ParseInt s 64).2 ≠ some strconv.NumError.ErrBitSize ∧
      ((s = [] ∨ ∃ c t, s = c :: t ∧ c.toNat ≠ 0x2B ∧ c.toNat ≠ 0x2D ∧
          ¬ (0x30 ≤ c.toNat ∧ c.toNat ≤ 0x39)) →
        (strconv.ParseInt s 64).2 = some strconv.NumError.ErrSyntax) ∧
      (∀ k : Int, 2 ^ 63 - 1 < k → v.toInt (strconv.decimal k) = 2 ^ 63 - 1) ∧
      (∀ k : Int, k < -2 ^ 63 → v.toInt (strconv.decimal k) = -2 ^ 63) := by
  refine ⟨fun h => ?_, toInt_of_range_error v s, ?_, strconv.ParseInt_syntax_error s, ?_, ?_⟩
  · have h0 : v.toInt s = 0 := toInt_of_syntax_error v s h
    have hz : v.toInt (lit "0") = 0 := by
      show strconv.toGoInt (strconv.ParseInt (lit "0") 64).1 = 0
      decide
    refine ⟨h0, ?_, ?_, ?_, ?_, ?_, ?_, ?_⟩ <;>
      simp only [ValidateBetween, ValidateBetweenInclusive, ValidateLen, ValidateMax,
        ValidateMin, h0, hz, implies_true]
  · rcases strconv.ParseInt_cases s with ⟨he, _⟩ | ⟨he, _⟩ | ⟨he, _⟩ <;> rw [he] <;> decide
  · intro k hk
    rw [toInt_decimal]
    omega
  · intro k hk
    rw [toInt_decimal]
    omega

/-- C4 witness: the non-numeric argument `abc` and the empty argument give 0,
the numeral `-9223372036854775809` gives a bound of `int64`. -/
theorem toInt_parse_failure_witness :
    ((strconv.ParseInt (lit "abc") 64).2 = some strconv.NumError.ErrSyntax ∧
        (ofItem (lit "hello")).toInt (lit "abc") = 0) ∧
      ((strconv.ParseInt [] 64).2 = some strconv.NumError.ErrSyntax ∧
        (ofItem (lit "hello")).toInt [] = 0) ∧
      ((strconv.ParseInt (lit "-9223372036854775809") 64).2 = some strconv.NumError.ErrRange ∧
        ((ofItem (lit "hello")).toInt (lit "-9223372036854775809") = 2 ^ 63 - 1 ∨
          (ofItem (lit "hello")).toInt (lit "-9223372036854775809") = -2 ^ 63)) ∧
      ((2 : Int) ^ 63 - 1 < 2 ^ 63 ∧
        (ofItem (lit "hello")).toInt (strconv.decimal (2 ^ 63)) = 2 ^ 63 - 1) :=
  ⟨⟨by decide, ((toInt_parse_failure (ofItem (lit "hello")) (lit "abc")).1 (by decide)).1⟩,
    ⟨by decide, ((toInt_parse_failure (ofItem (lit "hello")) []).1 (by decide)).1⟩,
    ⟨by decide,
      (toInt_parse_failure (ofItem (lit "hello")) (lit "-9223372036854775809")).2.1 (by decide)⟩,
    ⟨by decide,
      (toInt_parse_failure (ofItem (lit "hello")) []).2.2.2.2.1 (2 ^ 63) (by decide)⟩⟩

/-! ## The IP rules -/

/-- C5 (code defect): the results of the three IP rules on the items of the
claim.  For `192.168.0.1`, `ValidateIpv4` and `ValidateIp` are true and
`ValidateIpv6` is true as well, where the claim has false: `To16` is non-nil
for every parsed address, so the test `parsed.To16() != nil` never rejects.
For `::1`, `ValidateIpv4` is false, `ValidateIpv6` is true and `ValidateIp` is
true; for `not-an-ip` all three are false. -/
theorem ValidateIp_examples :
    ((ofItem (lit "192.168.0.1")).ValidateIpv4 = true ∧
        (ofItem (lit "192.168.0.1")).ValidateIpv6 = true ∧
        (ofItem (lit "192.168.0.1")).ValidateIp = true) ∧
      ((ofItem (lit "::1")).ValidateIpv4 = false ∧
        (ofItem (lit "::1")).ValidateIpv6 = true ∧
        (ofItem (lit "::1")).ValidateIp = true) ∧
      ((ofItem (lit "not-an-ip")).ValidateIpv4 = false ∧
        (ofItem (lit "not-an-ip")).ValidateIpv6 = false ∧
        (ofItem (lit "not-an-ip")).ValidateIp = false) := by
  decide

/-! ## The length rules -/

/-- The value of `toInt` on a string literal that spells a small number. -/
theorem toInt_lit (v : StringValidityChecker) :
    v.toInt (lit "3") = 3 ∧ v.toInt (lit "5") = 5 ∧ v.toInt (lit "6") = 6 ∧
      v.toInt (lit "10") = 10 := by
  refine ⟨?_, ?_, ?_, ?_⟩
  · show strconv.toGoInt (strconv.ParseInt (lit "3") 64).1 = 3
    decide
  · show strconv.toGoInt (strconv.ParseInt (lit "5") 64).1 = 5
    decide
  · show strconv.toGoInt (strconv.ParseInt (lit "6") 64).1 = 6
    decide
  · show strconv.toGoInt (strconv.ParseInt (lit "10") 64).1 = 10
    decide

/-- C6: for every item whose rune slice fits the 64-bit address space (4 bytes
per rune) and all integers `lo`, `hi` passed as decimal strings,
`ValidateBetween` is true exactly when `lo < n < hi`, `n` the character count
`len([]rune(item))`; with `("3", "6")` counts 3 and 6 give false, 4 and 5 true. -/
theorem ValidateBetween_iff (v : StringValidityChecker) (lo hi : Int)
    (hmem : 4 * (utf8.runes v.Item).length < 2 ^ 64) :
    (v.ValidateBetween (strconv.decimal lo) (strconv.decimal hi) = true ↔
        lo < v.runeLen ∧ v.runeLen < hi) ∧
      (v.runeLen = 3 ∨ v.runeLen = 6 → v.ValidateBetween (lit "3") (lit "6") = false) ∧
      (v.runeLen = 4 ∨ v.runeLen = 5 → v.ValidateBetween (lit "3") (lit "6") = true) := by
  obtain ⟨h3, _, h6, _⟩ := toInt_lit v
  simp only [ValidateBetween, toInt_decimal, h3, h6, Bool.and_eq_true, decide_eq_true_eq,
    Bool.and_eq_false_iff, decide_eq_false_iff_not]
  unfold runeLen
  refine ⟨?_, ?_, ?_⟩ <;> omega

/-- C6 witness: items of 3, 4, 5 and 6 characters against the bounds 3 and 6. -/
theorem ValidateBetween_iff_witness :
    4 * (utf8.runes (ofItem (lit "abcd")).Item).length < 2 ^ 64 ∧
      ((ofItem (lit "abcd")).ValidateBetween (strconv.decimal 3) (strconv.decimal 6) = true ↔
        (3 : Int) < (ofItem (lit "abcd")).runeLen ∧ (ofItem (lit "abcd")).runeLen < (6 : Int)) ∧
      (ofItem (lit "abc")).ValidateBetween (lit "3") (lit "6") = false ∧
      (ofItem (lit "abcd")).ValidateBetween (lit "3") (lit "6") = true ∧
      (ofItem (lit "abcde")).ValidateBetween (lit "3") (lit "6") = true ∧
      (ofItem (lit "abcdef")).ValidateBetween (lit "3") (lit "6") = false :=
  ⟨by decide, (ValidateBetween_iff (ofItem (lit "abcd")) 3 6 (by decide)).1,
    by decide, by decide, by decide, by decide⟩

/-- C7: for every item whose rune slice fits the 64-bit address space and all
integers `lo`, `hi` passed as decimal strings, `ValidateBetweenInclusive` is
true exactly when `lo <= n <= hi`, `n` the character count; with `("3", "6")`
counts 3 and 6 give true, 2 and 7 false. -/
theorem ValidateBetweenInclusive_iff (v : StringValidityChecker) (lo hi : Int)
    (hmem : 4 * (utf8.runes v.Item).length < 2 ^ 64) :
    (v.ValidateBetweenInclusive (strconv.decimal lo) (strconv.decimal hi) = true ↔
        lo ≤ v.runeLen ∧ v.runeLen ≤ hi) ∧
      (v.runeLen = 3 ∨ v.runeLen = 6 →
        v.ValidateBetweenInclusive (lit "3") (lit "6") = true) ∧
      (v.runeLen = 2 ∨ v.runeLen = 7 →
        v.ValidateBetweenInclusive (lit "3") (lit "6") = false) := by
  obtain ⟨h3, _, h6, _⟩ := toInt_lit v
  simp only [ValidateBetweenInclusive, toInt_decimal, h3, h6, Bool.and_eq_true,
    decide_eq_true_eq, Bool.and_eq_false_iff, decide_eq_false_iff_not]
  unfold runeLen
  refine ⟨?_, ?_, ?_⟩ <;> omega

/-- C7 witness: items of 2, 3, 6 and 7 characters against the bounds 3 and 6. -/
theorem ValidateBetweenInclusive_iff_witness :
    4 * (utf8.runes (ofItem (lit "abc")).Item).length < 2 ^ 64 ∧
      ((ofItem (lit "abc")).ValidateBetweenInclusive (strconv.decimal 3) (strconv.decimal 6)
          = true ↔
        (3 : Int) ≤ (ofItem (lit "abc")).runeLen ∧ (ofItem (lit "abc")).runeLen ≤ (6 : Int)) ∧
      (ofItem (lit "ab")).ValidateBetweenInclusive (lit "3") (lit "6") = false ∧
      (ofItem (lit "abc")).ValidateBetweenInclusive (lit "3") (lit "6") = true ∧
      (ofItem (lit "abcdef")).ValidateBetweenInclusive (lit "3") (lit "6") = true ∧
      (ofItem (lit "abcdefg")).ValidateBetweenInclusive (lit "3") (lit "6") = false :=
  ⟨by decide, (ValidateBetweenInclusive_iff (ofItem (lit "abc")) 3 6 (by decide)).1,
    by decide, by decide, by decide, by decide⟩

/-- C8: for every item whose rune slice fits the 64-bit address space and
every integer `k` passed as its decimal string, `ValidateLen` is false exactly
when the character count equals `k` and true otherwise; `ValidateLen("5")` is
false on an item of 5 characters. -/
theorem ValidateLen_iff (v : StringValidityChecker) (k : Int)
    (hmem : 4 * (utf8.runes v.Item).length < 2 ^ 64) :
    (v.ValidateLen (strconv.decimal k) = false ↔ v.runeLen = k) ∧
      (v.ValidateLen (strconv.decimal k) = true ↔ v.runeLen ≠ k) ∧
      (v.runeLen = 5 → v.ValidateLen (lit "5") = false) := by
  obtain ⟨_, h5, _, _⟩ := toInt_lit v
  simp only [ValidateLen, toInt_decimal, h5, decide_eq_true_eq, decide_eq_false_iff_not,
    ne_eq, not_not]
  unfold runeLen
  refine ⟨?_, ?_, ?_⟩ <;> omega

/-- C8 witness: `ValidateLen("5")` on items of 5 and of 4 characters. -/
theorem ValidateLen_iff_witness :
    4 * (utf8.runes (ofItem (lit "abcde")).Item).length < 2 ^ 64 ∧
      ((ofItem (lit "abcde")).ValidateLen (strconv.decimal 5) = false ↔
        (ofItem (lit "abcde")).runeLen = (5 : Int)) ∧
      (ofItem (lit "abcde")).ValidateLen (lit "5") = false ∧
      (ofItem (lit "abcd")).ValidateLen (lit "5") = true :=
  ⟨by decide, (ValidateLen_iff (ofItem (lit "abcde")) 5 (by decide)).1, by decide, by decide⟩

/-- C9: for every item whose rune slice fits the 64-bit address space and
every integer `k` passed as its decimal string, `ValidateMax` is true exactly
when the character count is `<= k` and `ValidateMin` exactly when it is `>= k`;
an item of exactly `k` characters passes both, as does one of 10 with `"10"`. -/
theorem ValidateMax_ValidateMin_iff (v : StringValidityChecker) (k : Int)
    (hmem : 4 * (utf8.runes v.Item).length < 2 ^ 64) :
    (v.ValidateMax (strconv.decimal k) = true ↔ v.runeLen ≤ k) ∧
      (v.ValidateMin (strconv.decimal k) = true ↔ v.runeLen ≥ k) ∧
      (v.runeLen = k →
        v.ValidateMax (strconv.decimal k) = true ∧ v.ValidateMin (strconv.decimal k) = true) ∧
      (v.runeLen = 10 →
        v.ValidateMax (lit "10") = true ∧ v.ValidateMin (lit "10") = true) := by
  obtain ⟨_, _, _, h10⟩ := toInt_lit v
  simp only [ValidateMax, ValidateMin, toInt_decimal, h10, decide_eq_true_eq]
  unfold runeLen
  refine ⟨?_, ?_, ?_, ?_⟩ <;> omega

/-- C9 witness: an item of 10 characters with the bound `"10"`. -/
theorem ValidateMax_ValidateMin_iff_witness :
    4 * (utf8.runes (ofItem (lit "abcdefghij")).Item).length < 2 ^ 64 ∧
      ((ofItem (lit "abcdefghij")).ValidateMax (strconv.decimal 10) = true ↔
        (ofItem (lit "abcdefghij")).runeLen ≤ (10 : Int)) ∧
      (ofItem (lit "abcdefghij")).ValidateMax (lit "10") = true ∧
      (ofItem (lit "abcdefghij")).ValidateMin (lit "10") = true ∧
      (ofItem (lit "abcdefghijk")).ValidateMax (lit "10") = false ∧
      (ofItem (lit "abcdefghi")).ValidateMin (lit "10") = false :=
  ⟨by decide, (ValidateMax_ValidateMin_iff (ofItem (lit "abcdefghij")) 10 (by decide)).1,
    by decide, by decide, by decide, by decide⟩

/-- C10: on valid UTF-8 items the length rules see only the number of code
points.  If the items of `v` and `w` encode `cs` and `ds` and these have the
same number of code points, then `len([]rune(item))` is that number for both
and each of the five length rules gives `v` and `w` the same result for the
same arguments, whatever the byte lengths are. -/
theorem length_rules_code_points (v w : StringValidityChecker) (cs ds : List Char)
    (hv : v.Item = utf8.encode cs) (hw : w.Item = utf8.encode ds)
    (hlen : cs.length = ds.length) (a b : GoString) :
    v.runeLen = (cs.length : Int) ∧ w.runeLen = (cs.length : Int) ∧
      v.ValidateBetween a b = w.ValidateBetween a b ∧
      v.ValidateBetweenInclusive a b = w.ValidateBetweenInclusive a b ∧
      v.ValidateLen a = w.ValidateLen a ∧
      v.ValidateMax a = w.ValidateMax a ∧
      v.ValidateMin a = w.ValidateMin a := by
  have h1 : v.runeLen = (cs.length : Int) := runeLen_encode v cs hv
  have h2 : w.runeLen = (cs.length : Int) := by rw [runeLen_encode w ds hw, hlen]
  have ht : ∀ s, v.toInt s = w.toInt s := fun _ => rfl
  refine ⟨h1, h2, ?_, ?_, ?_, ?_, ?_⟩ <;>
    simp only [ValidateBetween, ValidateBetweenInclusive, ValidateLen, ValidateMax,
      ValidateMin, h1, h2, ht]

/-- C10 witness: `héllo` (6 bytes) and `hello` (5 bytes) both have 5 code
points, are both treated as length 5, and get equal results from every length rule. -/
theorem length_rules_code_points_witness :
    ((ofItem (lit "héllo")).Item.length = 6 ∧ (ofItem (lit "hello")).Item.length = 5) ∧
      ((ofItem (lit "héllo")).runeLen = ("héllo".data.length : Int) ∧
        (ofItem (lit "hello")).runeLen = ("héllo".data.length : Int) ∧
        (ofItem (lit "héllo")).ValidateBetween (lit "3") (lit "6")
          = (ofItem (lit "hello")).ValidateBetween (lit "3") (lit "6") ∧
        (ofItem (lit "héllo")).ValidateBetweenInclusive (lit "3") (lit "6")
          = (ofItem (lit "hello")).ValidateBetweenInclusive (lit "3") (lit "6") ∧
        (ofItem (lit "héllo")).ValidateLen (lit "3") = (ofItem (lit "hello")).ValidateLen (lit "3") ∧
        (ofItem (lit "héllo")).ValidateMax (lit "3") = (ofItem (lit "hello")).ValidateMax (lit "3") ∧
        (ofItem (lit "héllo")).ValidateMin (lit "3")
          = (ofItem (lit "hello")).ValidateMin (lit "3")) :=
  ⟨by decide,
    length_rules_code_points (ofItem (lit "héllo")) (ofItem (lit "hello")) "héllo".data
      "hello".data rfl rfl (by decide) (lit "3") (lit "6")⟩

end StringValidityChecker

/-! ## The CNP validator: what it can return -/

set_option maxRecDepth 100000 in
/-- `strconv.Atoi(string(b))` succeeds exactly on the ASCII digits (checked on
each of the 256 bytes). -/
theorem strconv.Atoi_stringOfByte_fin :
    ∀ n : Fin 256, (strconv.Atoi (stringOfByte (UInt8.ofNat n.val))).2.isSome
      = !(decide (0x30 ≤ n.val ∧ n.val ≤ 0x39)) := by
  decide

/-- `strconv.Atoi(string(b))` succeeds exactly on the ASCII digits. -/
theorem strconv.Atoi_stringOfByte (b : UInt8) :
    (strconv.Atoi (stringOfByte b)).2 = none ↔ (0x30 ≤ b.toNat ∧ b.toNat ≤ 0x39) := by
  have hb : UInt8.ofNat b.toNat = b := UInt8.ext (utf8.toNat_ofNat_lt b.toNat b.toNat_lt)
  have h := strconv.Atoi_stringOfByte_fin ⟨b.toNat, b.toNat_lt⟩
  simp only [hb] at h
  by_cases hd : (0x30 ≤ b.toNat ∧ b.toNat ≤ 0x39)
  · simp only [hd, and_self, decide_True, Bool.not_true] at h
    simp only [hd, and_self, iff_true]
    cases hr : (strconv.Atoi (stringOfByte b)).2 with
    | none => rfl
    | some e => rw [hr] at h; simp at h
  · simp only [hd, decide_False, Bool.not_false] at h
    simp only [hd, iff_false]
    intro hr
    rw [hr] at h
    exact absurd h (by decide)

namespace StringValidityChecker

/-- The first round of the digit loop of `ValidateCnp` with the empty `digits`:
a panic on the empty string and on a leading digit, `return false` otherwise. -/
theorem cnpLoop_first_round (rawCNP : GoString) :
    (rawCNP = [] →
        cnpLoop rawCNP 12 0 0 [] = Except.error (RuntimeError.indexOutOfRange 0 0)) ∧
      (∀ b t, rawCNP = b :: t → (0x30 ≤ b.toNat ∧ b.toNat ≤ 0x39) →
        cnpLoop rawCNP 12 0 0 [] = Except.error (RuntimeError.indexOutOfRange 0 0)) ∧
      (∀ b t, rawCNP = b :: t → ¬ (0x30 ≤ b.toNat ∧ b.toNat ≤ 0x39) →
        cnpLoop rawCNP 12 0 0 [] = Except.ok (Sum.inl false)) := by
  refine ⟨?_, ?_, ?_⟩
  · rintro rfl; rfl
  · rintro b t rfl hd
    have hn := (strconv.Atoi_stringOfByte b).2 hd
    simp only [cnpLoop, index, List.get?, hn, control, assign, List.length_nil,
      Nat.lt_irrefl, if_false]
  · rintro b t rfl hd
    cases h : (strconv.Atoi (stringOfByte b)).2 with
    | none => exact absurd ((strconv.Atoi_stringOfByte b).1 h) hd
    | some e => simp only [cnpLoop, index, List.get?, h]

/-- C15: `ValidateCnp` returns true for no item.  On the empty item and on an
item whose first byte is a decimal digit it panics with index out of range
(at `rawCNP[0]`, respectively at the store into the empty slice `digits`);
on an item whose first byte is not a digit it returns false. -/
theorem ValidateCnp_never_true (v : StringValidityChecker) (nowYear : Int) :
    v.ValidateCnp nowYear ≠ Except.ok true ∧
      (v.Item = [] →
        v.ValidateCnp nowYear = Except.error (RuntimeError.indexOutOfRange 0 0)) ∧
      (∀ b t, v.Item = b :: t → (0x30 ≤ b.toNat ∧ b.toNat ≤ 0x39) →
        v.ValidateCnp nowYear = Except.error (RuntimeError.indexOutOfRange 0 0)) ∧
      (∀ b t, v.Item = b :: t → ¬ (0x30 ≤ b.toNat ∧ b.toNat ≤ 0x39) →
        v.ValidateCnp nowYear = Except.ok false) := by
  obtain ⟨h0, h1, h2⟩ := cnpLoop_first_round v.Item
  have e0 : v.Item = [] →
      v.ValidateCnp nowYear = Except.error (RuntimeError.indexOutOfRange 0 0) := by
    intro h; simp only [ValidateCnp, h0 h]
  have e1 : ∀ b t, v.Item = b :: t → (0x30 ≤ b.toNat ∧ b.toNat ≤ 0x39) →
      v.ValidateCnp nowYear = Except.error (RuntimeError.indexOutOfRange 0 0) := by
    intro b t h hd; simp only [ValidateCnp, h1 b t h hd]
  have e2 : ∀ b t, v.Item = b :: t → ¬ (0x30 ≤ b.toNat ∧ b.toNat ≤ 0x39) →
      v.ValidateCnp nowYear = Except.ok false := by
    intro b t h hd; simp only [ValidateCnp, h2 b t h hd]
  refine ⟨?_, e0, e1, e2⟩
  cases hi : v.Item with
  | nil => rw [e0 hi]; exact fun h => by cases h
  | cons b t =>
    by_cases hd : (0x30 ≤ b.toNat ∧ b.toNat ≤ 0x39)
    · rw [e1 b t hi hd]; exact fun h => by cases h
    · rw [e2 b t hi hd]; exact fun h => by cases h

/-- C15 witness: the empty item, an item that starts with a digit and an item
that starts with a letter. -/
theorem ValidateCnp_never_true_witness :
    (ofItem []).ValidateCnp 2024 = Except.error (RuntimeError.indexOutOfRange 0 0) ∧
      (ofItem (lit "1960101415229")).ValidateCnp 2024
        = Except.error (RuntimeError.indexOutOfRange 0 0) ∧
      (ofItem (lit "x960101415229")).ValidateCnp 2024 = Except.ok false :=
  ⟨(ValidateCnp_never_true (ofItem []) 2024).2.1 rfl,
    (ValidateCnp_never_true (ofItem (lit "1960101415229")) 2024).2.2.1 _ _ rfl (by decide),
    (ValidateCnp_never_true (ofItem (lit "x960101415229")) 2024).2.2.2 _ _ rfl (by decide)⟩

/-- C13 (code defect): on the 13-digit strings with county code 01 and 00,
every other field in range and the correct control digit, `ValidateCnp` panics
at the store into the empty slice `digits`; it returns neither true nor false
(same defect as C1).  With a 12-element `digits` the same loop and checks
return true for the county codes 01 and 52 and false for 00 and 53. -/
theorem ValidateCnp_county_panics (nowYear : Int) :
    ((ofItem (lit "1960101015220")).ValidateCnp nowYear
        = Except.error (RuntimeError.indexOutOfRange 0 0) ∧
      (ofItem (lit "1960101005223")).ValidateCnp nowYear
        = Except.error (RuntimeError.indexOutOfRange 0 0)) ∧
      (cnpLoop (lit "1960101015220") 12 0 0 (List.replicate 12 0)
          = Except.ok (Sum.inr (176, [1, 9, 6, 0, 1, 0, 1, 0, 1, 5, 2, 2])) ∧
        cnpChecks (lit "1960101015220") nowYear 176 [1, 9, 6, 0, 1, 0, 1, 0, 1, 5, 2, 2]
          = Except.ok true) ∧
      (cnpLoop (lit "1960101525220") 12 0 0 (List.replicate 12 0)
          = Except.ok (Sum.inr (209, [1, 9, 6, 0, 1, 0, 1, 5, 2, 5, 2, 2])) ∧
        cnpChecks (lit "1960101525220") nowYear 209 [1, 9, 6, 0, 1, 0, 1, 5, 2, 5, 2, 2]
          = Except.ok true) ∧
      (cnpLoop (lit "1960101005223") 12 0 0 (List.replicate 12 0)
          = Except.ok (Sum.inr (168, [1, 9, 6, 0, 1, 0, 1, 0, 0, 5, 2, 2])) ∧
        cnpChecks (lit "1960101005223") nowYear 168 [1, 9, 6, 0, 1, 0, 1, 0, 0, 5, 2, 2]
          = Except.ok false) ∧
      (cnpLoop (lit "1960101535228") 12 0 0 (List.replicate 12 0)
          = Except.ok (Sum.inr (217, [1, 9, 6, 0, 1, 0, 1, 5, 3, 5, 2, 2])) ∧
        cnpChecks (lit "1960101535228") nowYear 217 [1, 9, 6, 0, 1, 0, 1, 5, 3, 5, 2, 2]
          = Except.ok false) :=
  ⟨⟨rfl, rfl⟩, ⟨by decide, rfl⟩, ⟨by decide, rfl⟩, ⟨by decide, rfl⟩, ⟨by decide, rfl⟩⟩

/-- C16 (code defect): on `1960431415226` (31 April 1996, every checked field in
range, control digit 6) `ValidateCnp` panics at the store into the empty slice
`digits` and does not return true (same defect as C1).  With a 12-element
`digits` the same loop and checks return true on it and on the strings with
the days 30 February, 00 and 99: the day is read but gates nothing. -/
theorem ValidateCnp_bad_date_panics (nowYear : Int) :
    (ofItem (lit "1960431415226")).ValidateCnp nowYear
        = Except.error (RuntimeError.indexOutOfRange 0 0) ∧
      (cnpLoop (lit "1960431415226") 12 0 0 (List.replicate 12 0)
          = Except.ok (Sum.inr (226, [1, 9, 6, 0, 4, 3, 1, 4, 1, 5, 2, 2])) ∧
        cnpChecks (lit "1960431415226") nowYear 226 [1, 9, 6, 0, 4, 3, 1, 4, 1, 5, 2, 2]
          = Except.ok true) ∧
      (cnpLoop (lit "1960230415226") 12 0 0 (List.replicate 12 0)
          = Except.ok (Sum.inr (215, [1, 9, 6, 0, 2, 3, 0, 4, 1, 5, 2, 2])) ∧
        cnpChecks (lit "1960230415226") nowYear 215 [1, 9, 6, 0, 2, 3, 0, 4, 1, 5, 2, 2]
          = Except.ok true) ∧
      (cnpLoop (lit "1960100415226") 12 0 0 (List.replicate 12 0)
          = Except.ok (Sum.inr (193, [1, 9, 6, 0, 1, 0, 0, 4, 1, 5, 2, 2])) ∧
        cnpChecks (lit "1960100415226") nowYear 193 [1, 9, 6, 0, 1, 0, 0, 4, 1, 5, 2, 2]
          = Except.ok true) ∧
      (cnpLoop (lit "1960199415221") 12 0 0 (List.replicate 12 0)
          = Except.ok (Sum.inr (274, [1, 9, 6, 0, 1, 9, 9, 4, 1, 5, 2, 2])) ∧
        cnpChecks (lit "1960199415221") nowYear 274 [1, 9, 6, 0, 1, 9, 9, 4, 1, 5, 2, 2]
          = Except.ok true) :=
  ⟨rfl, ⟨by decide, rfl⟩, ⟨by decide, rfl⟩, ⟨by decide, rfl⟩, ⟨by decide, rfl⟩⟩

/-- C17: the `switch digits[0]` of `ValidateCnp` resolves the century as
stated: for every sex digit `s` (in particular in 1..9), every year fragment
`yy` (in particular in 0..99) and every current year `Y` the year is `1900 + yy` for `s` 1 or 2, `1800 + yy` for 3 or 4,
`2000 + yy` for 5 or 6, and for 7, 8, 9 it is `2000 + yy` when
`2000 + yy <= Y - 14` and `1900 + yy` when `2000 + yy > Y - 14`. -/
theorem resolveYear_century (s yy Y : Int) :
    (s = 1 ∨ s = 2 → resolveYear s yy Y = 1900 + yy) ∧
      (s = 3 ∨ s = 4 → resolveYear s yy Y = 1800 + yy) ∧
      (s = 5 ∨ s = 6 → resolveYear s yy Y = 2000 + yy) ∧
      (s = 7 ∨ s = 8 ∨ s = 9 →
        (2000 + yy ≤ Y - 14 → resolveYear s yy Y = 2000 + yy) ∧
        (2000 + yy > Y - 14 → resolveYear s yy Y = 1900 + yy)) := by
  unfold resolveYear
  refine ⟨fun h => ?_, fun h => ?_, fun h => ?_, fun h => ⟨fun hy => ?_, fun hy => ?_⟩⟩
  · rw [if_pos h]; omega
  · rw [if_neg (by omega), if_pos h]; omega
  · rw [if_neg (by omega), if_neg (by omega), if_pos h]; omega
  · rw [if_neg (by omega), if_neg (by omega), if_neg (by omega), if_pos h, if_neg (by omega)]
    omega
  · rw [if_neg (by omega), if_neg (by omega), if_neg (by omega), if_pos h, if_pos (by omega)]
    omega

/-- C17 witness: sex digit 8 with year fragment 15 in the year 2024 rolls back
to 1915, with year fragment 05 it stays 2005. -/
theorem resolveYear_century_witness :
    resolveYear 8 15 2024 = 1900 + 15 ∧ resolveYear 8 5 2024 = 2000 + 5 ∧
      resolveYear 1 96 2024 = 1900 + 96 :=
  ⟨((resolveYear_century 8 15 2024).2.2.2 (by decide)).2 (by decide),
    ((resolveYear_century 8 5 2024).2.2.2 (by decide)).1 (by decide),
    (resolveYear_century 1 96 2024).1 (by decide)⟩

/-- The year that the `switch digits[0]` produces from a sex digit in 1..9 and
a year fragment in 0..99 lies in `[1800, 2099]`. -/
theorem resolveYear_bounds (s y Y : Int) (hs : 1 ≤ s ∧ s ≤ 9) (hy : 0 ≤ y ∧ y ≤ 99) :
    1800 ≤ resolveYear s y Y ∧ resolveYear s y Y ≤ 2099 := by
  unfold resolveYear
  by_cases h1 : s = 1 ∨ s = 2
  · rw [if_pos h1]; omega
  · rw [if_neg h1]
    by_cases h3 : s = 3 ∨ s = 4
    · rw [if_pos h3]; omega
    · rw [if_neg h3]
      by_cases h5 : s = 5 ∨ s = 6
      · rw [if_pos h5]; omega
      · rw [if_neg h5, if_pos (by omega)]
        by_cases hy2 : y + 2000 > Y - 14
        · rw [if_pos hy2]; omega
        · rw [if_neg hy2]; omega

/-- C19: for a sex digit in 1..9, a year fragment in 0..99 and any current
year, the resolved year lies in `[1800, 2099]`, so the condition of the
`Wrong year` branch, `year < 1800 || year > 2099`, is false; in particular for
the year fragment `d1 * 10 + d2` of two decimal digits. -/
theorem resolveYear_in_range (s yy Y : Int) (hs : 1 ≤ s ∧ s ≤ 9) (hyy : 0 ≤ yy ∧ yy ≤ 99) :
    (1800 ≤ resolveYear s yy Y ∧ resolveYear s yy Y ≤ 2099) ∧
      ¬ (resolveYear s yy Y < 1800 ∨ resolveYear s yy Y > 2099) ∧
      (∀ d1 d2 : Int, 0 ≤ d1 ∧ d1 ≤ 9 → 0 ≤ d2 ∧ d2 ≤ 9 →
        ¬ (resolveYear s (d1 * 10 + d2) Y < 1800 ∨ resolveYear s (d1 * 10 + d2) Y > 2099)) := by
  refine ⟨resolveYear_bounds s yy Y hs hyy, ?_, ?_⟩
  · have := resolveYear_bounds s yy Y hs hyy
    omega
  · intro d1 d2 h1 h2
    have := resolveYear_bounds s (d1 * 10 + d2) Y hs (by omega)
    omega

/-- C19 witness: sex digit 9 with year fragment 99, late and early current years. -/
theorem resolveYear_in_range_witness :
    (1800 ≤ resolveYear 9 99 2024 ∧ resolveYear 9 99 2024 ≤ 2099) ∧
      (1800 ≤ resolveYear 9 99 3000 ∧ resolveYear 9 99 3000 ≤ 2099) :=
  ⟨(resolveYear_in_range 9 99 2024 (by decide) (by decide)).1,
    (resolveYear_in_range 9 99 3000 (by decide) (by decide)).1⟩

/-- C20: for every item and all argument strings, `ValidateBetweenInclusive(a, b)`
is `ValidateMin(a) && ValidateMax(b)` and `ValidateLen(a)` is
`!(ValidateMin(a) && ValidateMax(a))`. -/
theorem ValidateBetweenInclusive_eq_min_max (v : StringValidityChecker) (a b : GoString) :
    v.ValidateBetweenInclusive a b = (v.ValidateMin a && v.ValidateMax b) ∧
      v.ValidateLen a = !(v.ValidateMin a && v.ValidateMax a) := by
  refine ⟨rfl, ?_⟩
  simp only [ValidateLen, ValidateMin, ValidateMax]
  by_cases h : v.runeLen = v.toInt a
  · simp [h]
  · have h2 : ¬ (v.runeLen ≥ v.toInt a ∧ v.runeLen ≤ v.toInt a) := by omega
    rw [← Bool.decide_and]
    simp [h, h2]

/-- The checks after the digit loop do not depend on the current year when the
stored digits are decimal digits: the year only enters the range test, which
is false for either year. -/
theorem cnpChecks_year_independent (rawCNP : GoString) (y1 y2 bigSum : Int)
    (digits : List Int) (hd : ∀ d ∈ digits, 0 ≤ d ∧ d ≤ 9) :
    cnpChecks rawCNP y1 bigSum digits = cnpChecks rawCNP y2 bigSum digits := by
  rcases digits with _ | ⟨d0, _ | ⟨d1, _ | ⟨d2, t⟩⟩⟩
  · rfl
  · simp only [cnpChecks, index, List.get?, bind, Except.bind, pure, Except.pure]
  · simp only [cnpChecks, index, List.get?, bind, Except.bind, pure, Except.pure]
  · have h0 := hd d0 (by simp)
    have h1 := hd d1 (by simp)
    have h2 := hd d2 (by simp)
    by_cases hz : d0 = 0
    · simp only [cnpChecks, index, List.get?, bind, Except.bind, pure, Except.pure, hz, if_true]
    · have r1 : ¬ (resolveYear d0 (d1 * 10 + d2) y1 < 1800 ∨
          resolveYear d0 (d1 * 10 + d2) y1 > 2099) := by
        have := resolveYear_bounds d0 (d1 * 10 + d2) y1 (by omega) (by omega)
        omega
      have r2 : ¬ (resolveYear d0 (d1 * 10 + d2) y2 < 1800 ∨
          resolveYear d0 (d1 * 10 + d2) y2 > 2099) := by
        have := resolveYear_bounds d0 (d1 * 10 + d2) y2 (by omega) (by omega)
        omega
      simp only [cnpChecks, index, List.get?, bind, Except.bind, pure, Except.pure, hz, if_false,
        r1, r2]

/-- The result of `ValidateCnp` is the same for every value of the current year:
the function ends in the first round of the digit loop. -/
theorem ValidateCnp_year_irrelevant (v : StringValidityChecker) (y1 y2 : Int) :
    v.ValidateCnp y1 = v.ValidateCnp y2 := by
  obtain ⟨h0, h1, h2⟩ := cnpLoop_first_round v.Item
  cases hi : v.Item with
  | nil => simp only [ValidateCnp, h0 hi]
  | cons b t =>
    by_cases hd : (0x30 ≤ b.toNat ∧ b.toNat ≤ 0x39)
    · simp only [ValidateCnp, h1 b t hi hd]
    · simp only [ValidateCnp, h2 b t hi hd]

/-- C18 (as stated, refuted): there is no item with two values of the current
year for which `ValidateCnp` returns different booleans. -/
theorem ValidateCnp_not_time_dependent :
    ¬ ∃ (item : GoString) (y1 y2 : Int) (b1 b2 : Bool),
      (ofItem item).ValidateCnp y1 = Except.ok b1 ∧
        (ofItem item).ValidateCnp y2 = Except.ok b2 ∧ b1 ≠ b2 := by
  rintro ⟨item, y1, y2, b1, b2, h1, h2, hne⟩
  rw [ValidateCnp_year_irrelevant (ofItem item) y1 y2, h2] at h1
  exact hne (by cases h1; rfl)

/-- C18 (amended): the outcome of `ValidateCnp` does not depend on the current
year: any two values give the same result on the same item.  The checks after
the digit loop do not depend on it either when the stored digits are decimal
digits, since the clock only selects a century inside `[1800, 2099]`. -/
theorem ValidateCnp_year_independent (v : StringValidityChecker) (y1 y2 : Int) :
    v.ValidateCnp y1 = v.ValidateCnp y2 ∧
      ∀ (bigSum : Int) (digits : List Int), (∀ d ∈ digits, 0 ≤ d ∧ d ≤ 9) →
        cnpChecks v.Item y1 bigSum digits = cnpChecks v.Item y2 bigSum digits :=
  ⟨ValidateCnp_year_irrelevant v y1 y2,
    fun bigSum digits hd => cnpChecks_year_independent v.Item y1 y2 bigSum digits hd⟩

/-- C18 witness: sex digit 8 and year fragment 15, read in 2024 (century 1900)
and in 2040 (century 2000), with the same outcome of the checks. -/
theorem ValidateCnp_year_independent_witness :
    (∀ d ∈ [8, 1, 5, 0, 1, 0, 1, 4, 1, 5, 2, 2], (0 : Int) ≤ d ∧ d ≤ 9) ∧
      cnpChecks (lit "8150101415222") 2024 145 [8, 1, 5, 0, 1, 0, 1, 4, 1, 5, 2, 2]
        = cnpChecks (lit "8150101415222") 2040 145 [8, 1, 5, 0, 1, 0, 1, 4, 1, 5, 2, 2] ∧
      resolveYear 8 15 2024 = 1915 ∧ resolveYear 8 15 2040 = 2015 :=
  ⟨by decide,
    (ValidateCnp_year_independent (ofItem (lit "8150101415222")) 2024 2040).2 145
      [8, 1, 5, 0, 1, 0, 1, 4, 1, 5, 2, 2] (by decide),
    by decide, by decide⟩

end StringValidityChecker

/-! ### `regexp` -/

/-- After `^`, a match cannot start at a later position. -/
theorem regexp.search_beginText_false (ps : List regexp.Piece) (input : List Nat) :
    regexp.search (⟨regexp.Atom.beginText, regexp.Rep.one⟩ :: ps) false input = false := by
  induction input with
  | nil => simp [regexp.search, regexp.matchHere]
  | cons c cs ih => simp [regexp.search, regexp.matchHere, ih]

/-- The continuation after the last piece `$`: the rest of the text is empty. -/
theorem regexp.matchHere_endText :
    regexp.matchHere [⟨regexp.Atom.endText, regexp.Rep.one⟩]
      = fun _ input => input.isEmpty := by
  funext atStart input
  simp [regexp.matchHere]

/-- A starred atom followed by the end of the text matches exactly when the
atom accepts every remaining rune. -/
theorem regexp.matchStar_isEmpty (a : regexp.Atom) (input : List Nat) :
    ∀ atStart, regexp.matchStar a (fun _ i => i.isEmpty) atStart input
      = input.all a.accepts := by
  induction input with
  | nil => intro atStart; simp [regexp.matchStar]
  | cons c cs ih =>
    intro atStart
    simp only [regexp.matchStar, List.isEmpty_cons, Bool.false_or, ih, List.all_cons]

/-- The expression `^[...]*$` matches a text exactly when the class accepts
every rune of the text. -/
theorem regexp.search_anchored_class (ranges : List (Nat × Nat)) (input : List Nat) :
    regexp.search [⟨regexp.Atom.beginText, regexp.Rep.one⟩,
        ⟨regexp.Atom.charClass ranges, regexp.Rep.star⟩,
        ⟨regexp.Atom.endText, regexp.Rep.one⟩] true input
      = input.all (regexp.Atom.charClass ranges).accepts := by
  have hm : ∀ i, regexp.matchHere [⟨regexp.Atom.beginText, regexp.Rep.one⟩,
      ⟨regexp.Atom.charClass ranges, regexp.Rep.star⟩,
      ⟨regexp.Atom.endText, regexp.Rep.one⟩] true i
        = i.all (regexp.Atom.charClass ranges).accepts := by
    intro i
    have h1 : regexp.matchHere [⟨regexp.Atom.beginText, regexp.Rep.one⟩,
        ⟨regexp.Atom.charClass ranges, regexp.Rep.star⟩,
        ⟨regexp.Atom.endText, regexp.Rep.one⟩] true i
          = regexp.matchStar (regexp.Atom.charClass ranges)
              (regexp.matchHere [⟨regexp.Atom.endText, regexp.Rep.one⟩]) true i := by
      simp [regexp.matchHere]
    rw [h1, regexp.matchHere_endText, regexp.matchStar_isEmpty]
  cases input with
  | nil => rw [regexp.search, hm]
  | cons c cs => rw [regexp.search, regexp.search_beginText_false, Bool.or_false, hm]

namespace StringValidityChecker

/-- `checkRegexp` on an expression that parses to `^[...]*$`: no panic, and the
result tells whether the class accepts every rune of the item. -/
theorem checkRegexp_anchored_class (v : StringValidityChecker)
    (other : GoString → Option regexp.Regexp) (r : GoString) (ranges : List (Nat × Nat))
    (h : regexp.parse r = regexp.Parsed.ok [⟨regexp.Atom.beginText, regexp.Rep.one⟩,
      ⟨regexp.Atom.charClass ranges, regexp.Rep.star⟩,
      ⟨regexp.Atom.endText, regexp.Rep.one⟩]) :
    v.checkRegexp other r
      = Except.ok ((utf8.runes v.Item).all (regexp.Atom.charClass ranges).accepts) := by
  simp only [checkRegexp, regexp.Compile, h, regexp.search_anchored_class]

/-- C11: each of the four rules ends without a panic, and its result is true
exactly when every character (rune) of the item is in the set of the claim:
ASCII letters for `ValidateAlpha`; ASCII letters and digits for
`ValidateAlphaNum`; ASCII letters, digits, hyphen and underscore for
`ValidateAlphaDash`; ASCII letters, digits, tab, newline, form feed, carriage
return, space and period for `ValidateFullName`.  All four return true on the
empty string. -/
theorem Validate_character_classes (v : StringValidityChecker)
    (other : GoString → Option regexp.Regexp) :
    v.ValidateAlpha other = Except.ok ((utf8.runes v.Item).all fun r =>
        decide ((0x41 ≤ r ∧ r ≤ 0x5A) ∨ (0x61 ≤ r ∧ r ≤ 0x7A))) ∧
      v.ValidateAlphaNum other = Except.ok ((utf8.runes v.Item).all fun r =>
        decide ((0x41 ≤ r ∧ r ≤ 0x5A) ∨ (0x61 ≤ r ∧ r ≤ 0x7A) ∨ (0x30 ≤ r ∧ r ≤ 0x39))) ∧
      v.ValidateAlphaDash other = Except.ok ((utf8.runes v.Item).all fun r =>
        decide ((0x41 ≤ r ∧ r ≤ 0x5A) ∨ (0x61 ≤ r ∧ r ≤ 0x7A) ∨ (0x30 ≤ r ∧ r ≤ 0x39) ∨
          r = 0x2D ∨ r = 0x5F)) ∧
      v.ValidateFullName other = Except.ok ((utf8.runes v.Item).all fun r =>
        decide ((0x41 ≤ r ∧ r ≤ 0x5A) ∨ (0x61 ≤ r ∧ r ≤ 0x7A) ∨ (0x30 ≤ r ∧ r ≤ 0x39) ∨
          r = 0x20 ∨ r = 0x09 ∨ r = 0x0A ∨ r = 0x0C ∨ r = 0x0D ∨ r = 0x2E)) ∧
      ((ofItem []).ValidateAlpha other = Except.ok true ∧
        (ofItem []).ValidateAlphaNum other = Except.ok true ∧
        (ofItem []).ValidateAlphaDash other = Except.ok true ∧
        (ofItem []).ValidateFullName other = Except.ok true) := by
  have hA := checkRegexp_anchored_class v other (lit "^[A-Za-z]*$")
    [(65, 90), (97, 122)] (by decide)
  have hN := checkRegexp_anchored_class v other (lit "^[A-Za-z0-9]*$")
    [(65, 90), (97, 122), (48, 57)] (by decide)
  have hD := checkRegexp_anchored_class v other (lit "^[A-Za-z0-9\\-_]*$")
    [(65, 90), (97, 122), (48, 57), (45, 45), (95, 95)] (by decide)
  have hF := checkRegexp_anchored_class v other (lit "^[A-Za-z0-9\\s\\.]*$")
    [(65, 90), (97, 122), (48, 57), (9, 10), (12, 13), (32, 32), (46, 46)] (by decide)
  have eA := checkRegexp_anchored_class (ofItem []) other (lit "^[A-Za-z]*$")
    [(65, 90), (97, 122)] (by decide)
  have eN := checkRegexp_anchored_class (ofItem []) other (lit "^[A-Za-z0-9]*$")
    [(65, 90), (97, 122), (48, 57)] (by decide)
  have eD := checkRegexp_anchored_class (ofItem []) other (lit "^[A-Za-z0-9\\-_]*$")
    [(65, 90), (97, 122), (48, 57), (45, 45), (95, 95)]
    (by decide)
  have eF := checkRegexp_anchored_class (ofItem []) other (lit "^[A-Za-z0-9\\s\\.]*$")
    [(65, 90), (97, 122), (48, 57), (9, 10), (12, 13), (32, 32), (46, 46)]
    (by decide)
  refine ⟨?_, ?_, ?_, ?_, ⟨eA, eN, eD, eF⟩⟩
  · rw [ValidateAlpha, hA]
    congr 2
    funext r
    simp only [regexp.Atom.accepts, List.any_cons, List.any_nil, Bool.or_false,
      Bool.decide_or, Bool.decide_and]
  · rw [ValidateAlphaNum, hN]
    congr 2
    funext r
    simp only [regexp.Atom.accepts, List.any_cons, List.any_nil, Bool.or_false,
      Bool.decide_or, Bool.decide_and]
  · rw [ValidateAlphaDash, hD]
    congr 2
    funext r
    rw [Bool.eq_iff_iff]
    simp only [regexp.Atom.accepts, List.any_cons, List.any_nil, Bool.or_false,
      Bool.or_eq_true, Bool.and_eq_true, decide_eq_true_eq]
    omega
  · rw [ValidateFullName, hF]
    congr 2
    funext r
    rw [Bool.eq_iff_iff]
    simp only [regexp.Atom.accepts, List.any_cons, List.any_nil, Bool.or_false,
      Bool.or_eq_true, Bool.and_eq_true, decide_eq_true_eq]
    omega

/-- C12 (code defect): when the pattern does not compile, `ValidateRegexp` does
not resolve to a boolean.  `regexp.Compile` rejects `[` (missing closing
bracket) and `*` (missing argument to the repetition operator) and returns a
nil `*Regexp`; `checkRegexp` drops the error and calls `MatchString` on the nil
pointer, which panics, for every item. -/
theorem ValidateRegexp_bad_pattern_panics (v : StringValidityChecker)
    (other : GoString → Option regexp.Regexp) :
    (regexp.parse (lit "[") = regexp.Parsed.error regexp.ErrorCode.ErrMissingBracket ∧
        v.ValidateRegexp other (lit "[") = Except.error RuntimeError.nilDereference) ∧
      (regexp.parse (lit "*")
          = regexp.Parsed.error regexp.ErrorCode.ErrMissingRepeatArgument ∧
        v.ValidateRegexp other (lit "*") = Except.error RuntimeError.nilDereference) :=
  ⟨⟨by decide, rfl⟩, ⟨by decide, rfl⟩⟩

/-- C14: for a checker with at least one rule, the result of `GetErrors` is the
result of `GetCheckerErrors` on `Rules` without its first entry (and the
checker), whatever `GetCheckerErrors` is.  When `GetCheckerErrors` reads the
checker through `Key` and `Item` only, the first entry has no influence on the
result: replacing it changes nothing. -/
theorem GetErrors_skips_first (v : StringValidityChecker)
    (GetCheckerErrors : List GoString → StringValidityChecker →
      Except RuntimeError (List GoString)) :
    (v.Rules ≠ [] → v.GetErrors GetCheckerErrors = GetCheckerErrors v.Rules.tail v) ∧
      (∀ first rules, v.Rules = first :: rules →
        v.GetErrors GetCheckerErrors = GetCheckerErrors rules v) ∧
      ((∀ rules (w w2 : StringValidityChecker), w.Key = w2.Key → w.Item = w2.Item →
          GetCheckerErrors rules w = GetCheckerErrors rules w2) →
        ∀ first first2 rules, v.Rules = first :: rules →
          v.GetErrors GetCheckerErrors
            = GetErrors ⟨v.Key, first2 :: rules, v.Item⟩ GetCheckerErrors) := by
  refine ⟨?_, ?_, ?_⟩
  · intro h
    cases hr : v.Rules with
    | nil => exact absurd hr h
    | cons first rules => simp only [GetErrors, hr, List.tail_cons]
  · intro first rules hr
    simp only [GetErrors, hr]
  · intro hG first first2 rules hr
    simp only [GetErrors, hr]
    exact hG rules _ _ rfl rfl

/-- C14 witness: the rules `required`, `alpha`, `min:3` with a collector that
returns the rules it is given; `required` is not in the result. -/
theorem GetErrors_skips_first_witness :
    (StringValidityChecker.mk (lit "name") [lit "required", lit "alpha", lit "min:3"]
        (lit "ab1")).Rules ≠ [] ∧
      GetErrors ⟨lit "name", [lit "required", lit "alpha", lit "min:3"], lit "ab1"⟩
          (fun rules _ => Except.ok rules)
        = Except.ok [lit "alpha", lit "min:3"] ∧
      GetErrors ⟨lit "name", [lit "required", lit "alpha", lit "min:3"], lit "ab1"⟩
          (fun rules _ => Except.ok rules)
        = GetErrors ⟨lit "name", [lit "cnp", lit "alpha", lit "min:3"], lit "ab1"⟩
            (fun rules _ => Except.ok rules) :=
  ⟨by decide,
    (GetErrors_skips_first ⟨lit "name", [lit "required", lit "alpha", lit "min:3"], lit "ab1"⟩
      (fun rules _ => Except.ok rules)).1 (by decide),
    (GetErrors_skips_first ⟨lit "name", [lit "required", lit "alpha", lit "min:3"], lit "ab1"⟩
      (fun rules _ => Except.ok rules)).2.2 (fun _ _ _ _ _ => rfl) (lit "required") (lit "cnp")
      [lit "alpha", lit "min:3"] rfl⟩

end StringValidityChecker

end Validity
